import Mathlib

/-!
Shallow embedding of the event-submission validation pipeline of
`src/app/api/events/route.ts` (Next.js API route), together with the
pagination logic of its GET handler and the persistence hand-off of its
POST handler.

Strings are modelled as Lean `String` (sequences of characters); JavaScript
string operations are embedded on `List Char` via `String.data`.  The
JavaScript host builtins the route calls (`String.prototype.trim`, regular
expression matching, `JSON.parse`, `parseInt`, `new Date`, `new URL`) are
embedded by their ECMAScript / WHATWG specified semantics; the `Date` and
`URL` models are restricted to the locale-independent, specification-defined
input grammars (documented at their definitions).
-/

namespace DevEvents

/-- Characters matched by the JavaScript regular-expression class `\s` and
removed by `String.prototype.trim` (ECMAScript WhiteSpace ∪ LineTerminator). -/
def jsWhitespace (c : Char) : Bool :=
  decide (c.toNat = 32 ∨ c.toNat = 9 ∨ c.toNat = 10 ∨ c.toNat = 11 ∨ c.toNat = 12 ∨
    c.toNat = 13 ∨ c.toNat = 160 ∨ c.toNat = 5760 ∨
    (8192 ≤ c.toNat ∧ c.toNat ≤ 8202) ∨ c.toNat = 8232 ∨ c.toNat = 8233 ∨
    c.toNat = 8239 ∨ c.toNat = 8287 ∨ c.toNat = 12288 ∨ c.toNat = 65279)

/-- ASCII decimal digit, the JavaScript regular-expression class `\d`. -/
def isAsciiDigit (c : Char) : Bool :=
  decide (48 ≤ c.toNat ∧ c.toNat ≤ 57)

/-- JavaScript `value.trim()` on the character list: drop `\s`-class
characters from both ends. -/
def jsTrim (l : List Char) : List Char :=
  ((l.dropWhile jsWhitespace).reverse.dropWhile jsWhitespace).reverse

/-- JavaScript `value.trim()` at the `String` level. -/
def jsTrimStr (s : String) : String :=
  String.mk (jsTrim s.data)

/-- JavaScript `value.replace(/[<>]/g, "")`: remove every angle bracket. -/
def stripAngles (l : List Char) : List Char :=
  l.filter (fun c => !(c = '<' || c = '>'))

/-- Angle-bracket stripping at the `String` level. -/
def stripAnglesStr (s : String) : String :=
  String.mk (stripAngles s.data)

/-- ASCII lower-casing of a character, the effect of JavaScript
`toLowerCase()` on the inputs this validator compares (ASCII mode names). -/
def jsLowerChar (c : Char) : Char :=
  if 65 ≤ c.toNat ∧ c.toNat ≤ 90 then Char.ofNat (c.toNat + 32) else c

/-- JavaScript `value.toLowerCase()` at the `String` level (ASCII range). -/
def jsToLower (s : String) : String :=
  String.mk (s.data.map jsLowerChar)

/-- Numeric value of a list of ASCII digit characters, as computed by
JavaScript `parseInt` on an all-digit string. -/
def digitsVal (l : List Char) : Nat :=
  l.foldl (fun a c => a * 10 + (c.toNat - 48)) 0

/-- The ASCII digit character for `k < 10`. -/
def toDigit (k : Nat) : Char :=
  Char.ofNat (48 + k)

/-- Two-digit zero-padded decimal rendering: the value of JavaScript
`n.toString().padStart(2, "0")` for `n ≤ 99` (the only range the route
renders: hours ≤ 23, minutes ≤ 59, months ≤ 12, days ≤ 31). -/
def padTwo (n : Nat) : String :=
  String.mk [toDigit (n / 10), toDigit (n % 10)]

/-- Four-digit zero-padded decimal rendering of a year `n ≤ 9999`, as in the
date portion of JavaScript `Date.prototype.toISOString`. -/
def padFour (n : Nat) : String :=
  String.mk [toDigit (n / 1000), toDigit (n / 100 % 10), toDigit (n / 10 % 10), toDigit (n % 10)]

/-- Embedding of `sanitizePlainText` (route.ts lines 37-44): trim the value;
an all-whitespace value becomes `""`; otherwise strip every `<` and `>` and
keep the first `maxLength` characters (`slice(0, maxLength)`). -/
def sanitizePlainText (value : String) (maxLength : Nat) : String :=
  let trimmed := jsTrim value.data
  if trimmed = [] then ""
  else String.mk ((stripAngles trimmed).take maxLength)

/-- Match of the optional suffix `(?:\s*(AM|PM))?$` of the time regular
expression: either nothing remains, or optional whitespace followed by
exactly `AM` or `PM` (case-insensitive).  Returns `some none` for the empty
suffix, `some (some false)` for `AM`, `some (some true)` for `PM`. -/
def timeSuffix (l : List Char) : Option (Option Bool) :=
  if l = [] then some none
  else
    match l.dropWhile jsWhitespace with
    | [a, m] =>
      if (a = 'A' ∨ a = 'a') ∧ (m = 'M' ∨ m = 'm') then some (some false)
      else if (a = 'P' ∨ a = 'p') ∧ (m = 'M' ∨ m = 'm') then some (some true)
      else none
    | _ => none

/-- Match of the regular expression `^(\d{1,2}):(\d{2})(?:\s*(AM|PM))?$/i`
(route.ts line 56) against a character list, returning the numeric values of
the two digit groups and the optional AM/PM flag (`some true` = PM). -/
def timeGroups (l : List Char) : Option (Nat × Nat × Option Bool) :=
  if (l.takeWhile isAsciiDigit).length = 0 ∨ 2 < (l.takeWhile isAsciiDigit).length then none
  else
    match l.dropWhile isAsciiDigit with
    | ':' :: m1 :: m2 :: rest2 =>
      if isAsciiDigit m1 ∧ isAsciiDigit m2 then
        match timeSuffix rest2 with
        | some p => some (digitsVal (l.takeWhile isAsciiDigit), digitsVal [m1, m2], p)
        | none => none
      else none
    | _ => none

/-- The 12-hour to 24-hour adjustment of `normalizeTime` (route.ts lines
66-69): `PM` adds 12 hours unless the hour is already 12, `AM` zeroes a
12-hour value, no designator leaves the hour unchanged. -/
def convert12to24 (hours : Nat) (period : Option Bool) : Nat :=
  match period with
  | some true => if hours ≠ 12 then hours + 12 else hours
  | some false => if hours = 12 then 0 else hours
  | none => hours

/-- Embedding of `normalizeTime` (route.ts lines 55-76): trim, match the
time regular expression, convert 12-hour to 24-hour, reject hour > 23 or
minute > 59, and emit both components zero-padded to two digits. -/
def normalizeTime (value : String) : Option String :=
  match timeGroups (jsTrim value.data) with
  | none => none
  | some (h, m, p) =>
    if 23 < convert12to24 h p ∨ 59 < m then none
    else some (padTwo (convert12to24 h p) ++ ":" ++ padTwo m)

/-- Result of the modelled JavaScript `new Date(value)` call: the calendar
date and the milliseconds elapsed within that (UTC) day. -/
structure JsDate where
  year : Nat
  month : Nat
  day : Nat
  msOfDay : Nat
deriving DecidableEq, Repr

/-- Number of days in a month of the proleptic Gregorian calendar, as used
by the ECMAScript date semantics. -/
def daysInMonth (year month : Nat) : Nat :=
  if month = 2 then
    if year % 4 = 0 ∧ (year % 100 ≠ 0 ∨ year % 400 = 0) then 29 else 28
  else if month = 4 ∨ month = 6 ∨ month = 9 ∨ month = 11 then 30
  else 31

/-- Parse the optional time-of-day tail of a Date Time String Format value:
`HH:MM`, `HH:MM:SS` or `HH:MM:SS.sss`, terminated by the UTC designator
`Z`.  Returns the milliseconds within the day. -/
def jsDateTimeTail (l : List Char) : Option Nat :=
  match l with
  | h1 :: h2 :: ':' :: m1 :: m2 :: rest =>
    if isAsciiDigit h1 ∧ isAsciiDigit h2 ∧ isAsciiDigit m1 ∧ isAsciiDigit m2 then
      let hh := digitsVal [h1, h2]
      let mm := digitsVal [m1, m2]
      if 23 < hh ∨ 59 < mm then none
      else
        match rest with
        | ['Z'] => some ((hh * 60 + mm) * 60000)
        | ':' :: s1 :: s2 :: rest2 =>
          if isAsciiDigit s1 ∧ isAsciiDigit s2 ∧ digitsVal [s1, s2] ≤ 59 then
            let base := ((hh * 60 + mm) * 60 + digitsVal [s1, s2]) * 1000
            match rest2 with
            | ['Z'] => some base
            | '.' :: f1 :: f2 :: f3 :: ['Z'] =>
              if isAsciiDigit f1 ∧ isAsciiDigit f2 ∧ isAsciiDigit f3 then
                some (base + digitsVal [f1, f2, f3])
              else none
            | _ => none
          else none
        | _ => none
    else none
  | _ => none

/-- Stage of the `Date` model after year, month and day have been read:
validate the day against the month length, then accept either the end of
the input (midnight) or a `T`-prefixed time-of-day tail. -/
def jsDateAfterDay (year month day : Nat) (rest : List Char) : Option JsDate :=
  if day = 0 ∨ daysInMonth year month < day then none
  else
    match rest with
    | [] => some ⟨year, month, day, 0⟩
    | 'T' :: tl =>
      match jsDateTimeTail tl with
      | some ms => some ⟨year, month, day, ms⟩
      | none => none
    | _ => none

/-- Stage of the `Date` model after year and month have been read: validate
the month, then accept the end of input (day 1), a time tail, or a
`-DD` day component. -/
def jsDateAfterMonth (year month : Nat) (rest : List Char) : Option JsDate :=
  if month = 0 ∨ 12 < month then none
  else
    match rest with
    | [] => some ⟨year, month, 1, 0⟩
    | 'T' :: tl =>
      match jsDateTimeTail tl with
      | some ms => some ⟨year, month, 1, ms⟩
      | none => none
    | '-' :: d1 :: d2 :: rest2 =>
      if isAsciiDigit d1 ∧ isAsciiDigit d2 then
        jsDateAfterDay year month (digitsVal [d1, d2]) rest2
      else none
    | _ => none

/-- Stage of the `Date` model after the four-digit year: accept the end of
input (January 1st), a time tail, or a `-MM` month component. -/
def jsDateAfterYear (year : Nat) (rest : List Char) : Option JsDate :=
  match rest with
  | [] => some ⟨year, 1, 1, 0⟩
  | 'T' :: tl =>
    match jsDateTimeTail tl with
    | some ms => some ⟨year, 1, 1, ms⟩
    | none => none
  | '-' :: m1 :: m2 :: rest2 =>
    if isAsciiDigit m1 ∧ isAsciiDigit m2 then
      jsDateAfterMonth year (digitsVal [m1, m2]) rest2
    else none
  | _ => none

/-- Model of the JavaScript `new Date(value)` string parser (route.ts line
47), restricted to the locale-independent ECMAScript Date Time String
Format: `YYYY`, `YYYY-MM` or `YYYY-MM-DD`, optionally followed by
`THH:MM[:SS[.sss]]Z`.  Out-of-range months, days or time components give an
invalid date (`none`), as does any string outside this grammar.  Parsing of
other host-accepted formats (e.g. `"March 15, 2024"`) is
implementation-defined and interpreted in the host time zone, and is outside
this model. -/
def jsDateParse (value : String) : Option JsDate :=
  match value.data with
  | y1 :: y2 :: y3 :: y4 :: rest =>
    if isAsciiDigit y1 ∧ isAsciiDigit y2 ∧ isAsciiDigit y3 ∧ isAsciiDigit y4 then
      jsDateAfterYear (digitsVal [y1, y2, y3, y4]) rest
    else none
  | _ => none

/-- The calendar-date portion of `Date.prototype.toISOString()`:
`YYYY-MM-DD`, zero padded. -/
def isoDatePart (d : JsDate) : String :=
  padFour d.year ++ "-" ++ padTwo d.month ++ "-" ++ padTwo d.day

/-- Embedding of `normalizeDate` (route.ts lines 46-53): parse with the
`Date` model; an invalid date yields `none`, otherwise the result is
`toISOString()` truncated at `"T"`, i.e. the ISO calendar date with the
time-of-day discarded. -/
def normalizeDate (value : String) : Option String :=
  match jsDateParse value with
  | none => none
  | some d => some (isoDatePart d)

/-- JSON values, the possible results of JavaScript `JSON.parse`.  Numbers
keep their source lexeme; the route only ever asks whether a value is a
string or an array, so the numeric magnitude is never consulted. -/
inductive Json where
  | null
  | bool (b : Bool)
  | num (lexeme : String)
  | str (s : String)
  | arr (elems : List Json)
  | obj (members : List (String × Json))

/-- JSON insignificant whitespace: space, tab, line feed, carriage return. -/
def jsonWsChar (c : Char) : Bool :=
  c = ' ' || c = '\t' || c = '\n' || c = '\r'

/-- Skip JSON insignificant whitespace. -/
def skipJsonWs (l : List Char) : List Char :=
  l.dropWhile jsonWsChar

/-- Hexadecimal digit test for JSON `\uXXXX` escapes. -/
def isHexDigit (c : Char) : Bool :=
  decide ((48 ≤ c.toNat ∧ c.toNat ≤ 57) ∨ (65 ≤ c.toNat ∧ c.toNat ≤ 70) ∨
    (97 ≤ c.toNat ∧ c.toNat ≤ 102))

/-- Value of a hexadecimal digit. -/
def hexVal (c : Char) : Nat :=
  if 97 ≤ c.toNat then c.toNat - 87
  else if 65 ≤ c.toNat then c.toNat - 55
  else c.toNat - 48

/-- Body of a JSON string after the opening quote: returns the decoded
characters and the input remaining after the closing quote.  Control
characters below U+0020 are rejected; `\uXXXX` escapes decode to the scalar
value (a lone surrogate, not a Lean scalar, decodes to the default
character, a corner never consulted by the route).  Fuel-indexed; the
callers supply the input length as fuel, which bounds the recursion. -/
def jsonStringBody : Nat → List Char → Option (List Char × List Char)
  | 0, _ => none
  | fuel + 1, cs =>
    match cs with
    | [] => none
    | '"' :: rest => some ([], rest)
    | '\\' :: e :: rest =>
      let decoded : Option (Char × List Char) :=
        match e with
        | '"' => some ('"', rest)
        | '\\' => some ('\\', rest)
        | '/' => some ('/', rest)
        | 'b' => some (Char.ofNat 8, rest)
        | 'f' => some (Char.ofNat 12, rest)
        | 'n' => some ('\n', rest)
        | 'r' => some ('\r', rest)
        | 't' => some ('\t', rest)
        | 'u' =>
          match rest with
          | a :: b :: c :: d :: rest2 =>
            if isHexDigit a ∧ isHexDigit b ∧ isHexDigit c ∧ isHexDigit d then
              some (Char.ofNat (((hexVal a * 16 + hexVal b) * 16 + hexVal c) * 16 + hexVal d), rest2)
            else none
          | _ => none
        | _ => none
      match decoded with
      | some (c, rest2) =>
        match jsonStringBody fuel rest2 with
        | some (acc, rest3) => some (c :: acc, rest3)
        | none => none
      | none => none
    | c :: rest =>
      if c.toNat < 32 then none
      else
        match jsonStringBody fuel rest with
        | some (acc, rest2) => some (c :: acc, rest2)
        | none => none

/-- JSON number lexeme: `-? int frac? exp?` with the grammar of RFC 8259
(no leading zeros, a fraction and exponent need at least one digit).
Returns the lexeme and the remaining input. -/
def jsonNumberLex (cs : List Char) : Option (List Char × List Char) :=
  let signAndRest : List Char × List Char :=
    match cs with
    | '-' :: r => (['-'], r)
    | r => ([], r)
  let sign := signAndRest.1
  let afterSign := signAndRest.2
  let intAndRest : Option (List Char × List Char) :=
    match afterSign with
    | '0' :: r => some (['0'], r)
    | c :: r =>
      if isAsciiDigit c ∧ c ≠ '0' then
        some (c :: r.takeWhile isAsciiDigit, r.dropWhile isAsciiDigit)
      else none
    | [] => none
  match intAndRest with
  | none => none
  | some (intPart, r1) =>
    let fracAndRest : Option (List Char × List Char) :=
      match r1 with
      | '.' :: r2 =>
        let ds := r2.takeWhile isAsciiDigit
        if ds = [] then none else some ('.' :: ds, r2.dropWhile isAsciiDigit)
      | _ => some ([], r1)
    match fracAndRest with
    | none => none
    | some (fracPart, r3) =>
      let expAndRest : Option (List Char × List Char) :=
        match r3 with
        | e :: r4 =>
          if e = 'e' ∨ e = 'E' then
            let signedTail : List Char × List Char :=
              match r4 with
              | '+' :: r5 => (['+'], r5)
              | '-' :: r5 => (['-'], r5)
              | r5 => ([], r5)
            let ds := signedTail.2.takeWhile isAsciiDigit
            if ds = [] then none
            else some (e :: signedTail.1 ++ ds, signedTail.2.dropWhile isAsciiDigit)
          else some ([], r3)
        | [] => some ([], r3)
      match expAndRest with
      | none => none
      | some (expPart, r6) => some (sign ++ intPart ++ fracPart ++ expPart, r6)

mutual

/-- Fuel-indexed JSON value parser implementing the RFC 8259 grammar used by
JavaScript `JSON.parse`: leading whitespace, then a literal, number, string,
array or object.  Returns the value and the remaining input. -/
def jsonValue : Nat → List Char → Option (Json × List Char)
  | 0, _ => none
  | fuel + 1, cs =>
    match skipJsonWs cs with
    | 'n' :: 'u' :: 'l' :: 'l' :: rest => some (Json.null, rest)
    | 't' :: 'r' :: 'u' :: 'e' :: rest => some (Json.bool true, rest)
    | 'f' :: 'a' :: 'l' :: 's' :: 'e' :: rest => some (Json.bool false, rest)
    | '"' :: rest =>
      match jsonStringBody (rest.length + 1) rest with
      | some (content, rest2) => some (Json.str (String.mk content), rest2)
      | none => none
    | '[' :: rest =>
      match skipJsonWs rest with
      | ']' :: rest2 => some (Json.arr [], rest2)
      | _ =>
        match jsonArrayElems fuel rest with
        | some (vs, rest2) => some (Json.arr vs, rest2)
        | none => none
    | '{' :: rest =>
      match skipJsonWs rest with
      | '}' :: rest2 => some (Json.obj [], rest2)
      | _ =>
        match jsonObjMembers fuel rest with
        | some (ms, rest2) => some (Json.obj ms, rest2)
        | none => none
    | other =>
      match jsonNumberLex other with
      | some (lex, rest) => some (Json.num (String.mk lex), rest)
      | none => none

/-- One or more comma-separated JSON array elements followed by `]`. -/
def jsonArrayElems : Nat → List Char → Option (List Json × List Char)
  | 0, _ => none
  | fuel + 1, cs =>
    match jsonValue fuel cs with
    | none => none
    | some (v, rest) =>
      match skipJsonWs rest with
      | ',' :: rest2 =>
        match jsonArrayElems fuel rest2 with
        | some (vs, rest3) => some (v :: vs, rest3)
        | none => none
      | ']' :: rest2 => some ([v], rest2)
      | _ => none

/-- One or more comma-separated JSON object members followed by the closing
brace. -/
def jsonObjMembers : Nat → List Char → Option (List (String × Json) × List Char)
  | 0, _ => none
  | fuel + 1, cs =>
    match skipJsonWs cs with
    | '"' :: rest =>
      match jsonStringBody (rest.length + 1) rest with
      | none => none
      | some (key, rest2) =>
        match skipJsonWs rest2 with
        | ':' :: rest3 =>
          match jsonValue fuel rest3 with
          | none => none
          | some (v, rest4) =>
            match skipJsonWs rest4 with
            | ',' :: rest5 =>
              match jsonObjMembers fuel rest5 with
              | some (ms, rest6) => some ((String.mk key, v) :: ms, rest6)
              | none => none
            | '}' :: rest5 => some ([(String.mk key, v)], rest5)
            | _ => none
        | _ => none
    | _ => none

end

/-- Embedding of JavaScript `JSON.parse(value)` (route.ts line 81): parse
one JSON value and require only whitespace to remain; `none` models a
thrown `SyntaxError`.  The fuel `2 * length + 2` strictly bounds the
recursion depth reachable while consuming the input. -/
def jsonParse (value : String) : Option Json :=
  match jsonValue (2 * value.data.length + 2) value.data with
  | some (v, rest) => if skipJsonWs rest = [] then some v else none
  | none => none

/-- The element mapping step of `parseStringArray` (route.ts line 91):
strings are trimmed, any non-string element becomes the empty string. -/
def trimOrEmpty : Json → String
  | Json.str s => jsTrimStr s
  | _ => ""

/-- Embedding of `parseStringArray` (route.ts lines 78-96): try
`JSON.parse`; on a parse error fall back to comma-splitting (or a
single-element list when no comma occurs); reject a non-array result; trim
string elements (non-strings become empty), drop empty elements, strip
angle brackets; reject an empty final list. -/
def parseStringArray (value : String) : Option (List String) :=
  let candidate : Json :=
    match jsonParse value with
    | some v => v
    | none =>
      if value.data.contains ',' then
        Json.arr ((value.data.splitOn ',').map (fun l => Json.str (String.mk l)))
      else Json.arr [Json.str value]
  match candidate with
  | Json.arr items =>
    let sanitizedArray := ((items.map trimOrEmpty).filter (fun s => s != "")).map stripAnglesStr
    if sanitizedArray = [] then none else some sanitizedArray
  | _ => none

/-- ASCII letter test (URL scheme start). -/
def isAlphaChar (c : Char) : Bool :=
  decide ((65 ≤ c.toNat ∧ c.toNat ≤ 90) ∨ (97 ≤ c.toNat ∧ c.toNat ≤ 122))

/-- Characters allowed after the first character of a URL scheme. -/
def isSchemeChar (c : Char) : Bool :=
  isAlphaChar c || isAsciiDigit c || c = '+' || c = '-' || c = '.'

/-- Characters terminating the authority component of a hierarchical URL:
a path, query or fragment delimiter. -/
def urlAuthorityEnd (c : Char) : Bool :=
  c = '/' || c = '?' || c = '#'

/-- Stage of the URL model after the scheme has been read: require `://`,
then a non-empty authority ending at a `/`, `?` or `#`; the scheme and
authority are lower-cased and an empty path serializes as `/`.  Returns the
protocol (scheme with trailing colon) and the serialization. -/
def parseUrlAfterScheme (scheme rest : List Char) : Option (String × String) :=
  match rest with
  | ':' :: '/' :: '/' :: r3 =>
    if r3.takeWhile (fun c => !urlAuthorityEnd c) = [] then none
    else
      some (String.mk (scheme.map jsLowerChar) ++ ":",
        String.mk (scheme.map jsLowerChar) ++ ":" ++ "//" ++
          String.mk ((r3.takeWhile (fun c => !urlAuthorityEnd c)).map jsLowerChar) ++
          (if r3.dropWhile (fun c => !urlAuthorityEnd c) = [] then "/"
           else String.mk (r3.dropWhile (fun c => !urlAuthorityEnd c))))
  | _ => none

/-- Model of the JavaScript `new URL(value)` constructor (route.ts line
100), restricted to absolute hierarchical URLs of the shape
`scheme://authority[/path...]`: the scheme (a letter followed by scheme
characters) and authority are lower-cased, an empty path serializes as `/`.
WHATWG percent-encoding, userinfo/port splitting and host normalization
beyond lower-casing are outside the model, as are non-hierarchical forms. -/
def parseUrl (value : String) : Option (String × String) :=
  match value.data with
  | [] => none
  | c0 :: _ =>
    if isAlphaChar c0 then
      parseUrlAfterScheme (value.data.takeWhile isSchemeChar) (value.data.dropWhile isSchemeChar)
    else none

/-- Embedding of `ensureSecureImageUrl` (route.ts lines 98-105): parse as a
URL, keep the serialization only when the protocol is exactly `https:`. -/
def ensureSecureImageUrl (url : String) : Option String :=
  match parseUrl url with
  | none => none
  | some (protocol, serialized) =>
    if protocol = "https:" then some serialized else none

/-- A `FormDataEntryValue`: either a string or a `File` attachment. -/
inductive FormDataValue where
  | str (s : String)
  | file
deriving DecidableEq, Repr

/-- The raw submission mapping, restricted to the thirteen keys the
validator reads (route.ts line 107); `none` models an absent key.  Keys the
validator never looks up are irrelevant to its behaviour and omitted. -/
structure RawEvent where
  title : Option FormDataValue
  description : Option FormDataValue
  overview : Option FormDataValue
  venue : Option FormDataValue
  location : Option FormDataValue
  date : Option FormDataValue
  time : Option FormDataValue
  mode : Option FormDataValue
  audience : Option FormDataValue
  agenda : Option FormDataValue
  organizer : Option FormDataValue
  tags : Option FormDataValue
  image : Option FormDataValue
deriving DecidableEq, Repr

/-- The validated output record (route.ts lines 8-22).  `mode` is the
lower-cased trimmed string, always one of the allowed mode names. -/
structure SanitizedEvent where
  title : String
  description : String
  overview : String
  venue : String
  location : String
  date : String
  time : String
  mode : String
  audience : String
  agenda : List String
  organizer : String
  tags : List String
  image : String
deriving DecidableEq, Repr

/-- The `Partial<SanitizedEvent>` accumulator (route.ts line 112). -/
structure PartialEvent where
  title : Option String
  description : Option String
  overview : Option String
  venue : Option String
  location : Option String
  date : Option String
  time : Option String
  mode : Option String
  audience : Option String
  agenda : Option (List String)
  organizer : Option String
  tags : Option (List String)
  image : Option String
deriving DecidableEq, Repr

/-- The unchecked cast `sanitized as SanitizedEvent` (route.ts line 187)
made explicit: a partial record completes exactly when every field has been
assigned. -/
def completeEvent (p : PartialEvent) : Option SanitizedEvent :=
  match p.title, p.description, p.overview, p.venue, p.location, p.date, p.time,
      p.mode, p.audience, p.agenda, p.organizer, p.tags, p.image with
  | some t, some de, some o, some v, some l, some da, some ti, some mo, some au,
      some ag, some org, some tg, some im =>
    some ⟨t, de, o, v, l, da, ti, mo, au, ag, org, tg, im⟩
  | _, _, _, _, _, _, _, _, _, _, _, _, _ => none

/-- The allowed event modes (route.ts line 6), in declaration order. -/
def ALLOWED_MODES : List String := ["online", "offline", "hybrid"]

/-- The per-field maximum lengths (route.ts lines 24-35), in declaration
order (the order `Object.keys` iterates them). -/
def TEXT_FIELD_LIMITS : List (String × Nat) :=
  [("title", 100), ("description", 1000), ("overview", 500), ("venue", 100),
   ("location", 150), ("audience", 150), ("organizer", 150)]

/-- One iteration of the text-field loop (route.ts lines 114-128): a
missing or non-string value records `"<field> is required"`; an empty
sanitized value records `"<field> cannot be empty"`; otherwise the
sanitized value is assigned.  Returns the assigned value and the errors
pushed by this iteration. -/
def textFieldCheck (name : String) (rawValue : Option FormDataValue) (maxLength : Nat) :
    Option String × List String :=
  match rawValue with
  | some (FormDataValue.str s) =>
    let cleanValue := sanitizePlainText s maxLength
    if cleanValue = "" then (none, [name ++ " cannot be empty"])
    else (some cleanValue, [])
  | _ => (none, [name ++ " is required"])

/-- The date block (route.ts lines 130-140). -/
def dateCheck (rawValue : Option FormDataValue) : Option String × List String :=
  match rawValue with
  | some (FormDataValue.str s) =>
    match normalizeDate s with
    | none => (none, ["date must be a valid date"])
    | some d => (some d, [])
  | _ => (none, ["date is required"])

/-- The time block (route.ts lines 142-152). -/
def timeCheck (rawValue : Option FormDataValue) : Option String × List String :=
  match rawValue with
  | some (FormDataValue.str s) =>
    match normalizeTime s with
    | none => (none, ["time must be in HH:MM or HH:MM AM/PM format"])
    | some t => (some t, [])
  | _ => (none, ["time is required"])

/-- The `const rawMode` of the mode block (route.ts line 154): a non-string
raw value is replaced by `""`, a string is trimmed and lower-cased. -/
def modeRaw (rawValue : Option FormDataValue) : String :=
  match rawValue with
  | some (FormDataValue.str s) => jsToLower (jsTrimStr s)
  | _ => ""

/-- The mode block (route.ts lines 154-159): the trimmed lower-cased value
must be one of the allowed modes. -/
def modeCheck (rawValue : Option FormDataValue) : Option String × List String :=
  if ALLOWED_MODES.contains (modeRaw rawValue) then (some (modeRaw rawValue), [])
  else (none, ["mode must be one of: " ++ String.intercalate ", " ALLOWED_MODES])

/-- The ternary `typeof v === "string" ? v : ""` applied to the agenda,
tags and image entries (route.ts lines 161, 169, 177). -/
def rawFieldStr (rawValue : Option FormDataValue) : String :=
  match rawValue with
  | some (FormDataValue.str s) => s
  | _ => ""

/-- The agenda/tags blocks (route.ts lines 161-175): an empty raw string
short-circuits to `null` (it is falsy); otherwise `parseStringArray`
decides. -/
def arrayFieldCheck (name : String) (rawValue : Option FormDataValue) :
    Option (List String) × List String :=
  match (if rawFieldStr rawValue = "" then none else parseStringArray (rawFieldStr rawValue)) with
  | none => (none, [name ++ " must be an array of strings with at least one item"])
  | some a => (some a, [])

/-- The image block (route.ts lines 177-183): the HTTPS check decides. -/
def imageCheck (rawValue : Option FormDataValue) : Option String × List String :=
  match ensureSecureImageUrl (rawFieldStr rawValue) with
  | none => (none, ["image must be a valid HTTPS URL"])
  | some u => (some u, [])

/-- The accumulated error list of one validation pass, in push order: the
seven text fields in `TEXT_FIELD_LIMITS` order, then date, time, mode,
agenda, tags, image. -/
def eventErrors (raw : RawEvent) : List String :=
  (textFieldCheck "title" raw.title 100).2 ++
  (textFieldCheck "description" raw.description 1000).2 ++
  (textFieldCheck "overview" raw.overview 500).2 ++
  (textFieldCheck "venue" raw.venue 100).2 ++
  (textFieldCheck "location" raw.location 150).2 ++
  (textFieldCheck "audience" raw.audience 150).2 ++
  (textFieldCheck "organizer" raw.organizer 150).2 ++
  (dateCheck raw.date).2 ++
  (timeCheck raw.time).2 ++
  (modeCheck raw.mode).2 ++
  (arrayFieldCheck "agenda" raw.agenda).2 ++
  (arrayFieldCheck "tags" raw.tags).2 ++
  (imageCheck raw.image).2

/-- The `Partial<SanitizedEvent>` built by one validation pass. -/
def eventPartial (raw : RawEvent) : PartialEvent :=
  ⟨(textFieldCheck "title" raw.title 100).1,
   (textFieldCheck "description" raw.description 1000).1,
   (textFieldCheck "overview" raw.overview 500).1,
   (textFieldCheck "venue" raw.venue 100).1,
   (textFieldCheck "location" raw.location 150).1,
   (dateCheck raw.date).1,
   (timeCheck raw.time).1,
   (modeCheck raw.mode).1,
   (textFieldCheck "audience" raw.audience 150).1,
   (arrayFieldCheck "agenda" raw.agenda).1,
   (textFieldCheck "organizer" raw.organizer 150).1,
   (arrayFieldCheck "tags" raw.tags).1,
   (imageCheck raw.image).1⟩

/-- The result record of `validateAndSanitizeEvent` (route.ts lines
107-110). -/
structure ValidationResult where
  sanitizedEvent : Option SanitizedEvent
  errors : List String
deriving DecidableEq, Repr

/-- Embedding of `validateAndSanitizeEvent` (route.ts lines 107-189): run
every per-field check, accumulate all errors, and return the completed
record exactly when the error list is empty (route.ts lines 185-188). -/
def validateAndSanitizeEvent (raw : RawEvent) : ValidationResult :=
  ⟨if eventErrors raw = [] then completeEvent (eventPartial raw) else none,
   eventErrors raw⟩

/-- The object literal `{...sanitizedEvent, tags: tags, agenda: agenda}`
passed to `Event.create` (route.ts lines 244-248): the sanitized record
with its `tags` and `agenda` fields overridden by raw JSON values. -/
structure CreateArg where
  base : SanitizedEvent
  tags : Json
  agenda : Json

/-- The persistence hand-off of the `POST` handler (route.ts lines
195-248), after the image upload has injected the uploaded URL: the raw
`tags` and `agenda` strings are passed through `JSON.parse` (route.ts lines
209-210, a thrown `SyntaxError` aborts the request with a 500 response,
modelled as `none`) before the validator runs; on successful validation
`Event.create` receives the spread of the sanitized record with `tags` and
`agenda` replaced by those parsed raw values. -/
def postCreateArg (raw : RawEvent) : Option CreateArg :=
  match raw.tags, raw.agenda with
  | some (FormDataValue.str tagsStr), some (FormDataValue.str agendaStr) =>
    match jsonParse tagsStr, jsonParse agendaStr with
    | some tagsJson, some agendaJson =>
      match (validateAndSanitizeEvent raw).sanitizedEvent with
      | some ev => some ⟨ev, tagsJson, agendaJson⟩
      | none => none
    | _, _ => none
  | _, _ => none

/-- Embedding of JavaScript `parseInt(value, 10)` (route.ts lines 278,
287): skip leading whitespace, an optional sign, then the longest digit
prefix; no digits means `NaN`, modelled as `none`.  (The float rounding of
digit sequences beyond 2^53 is not modelled; the GET handler clamps the
results into small ranges.) -/
def parseIntJs (value : String) : Option Int :=
  let cs := value.data.dropWhile jsWhitespace
  let signAndRest : Bool × List Char :=
    match cs with
    | '-' :: r => (true, r)
    | '+' :: r => (false, r)
    | r => (false, r)
  let digits := signAndRest.2.takeWhile isAsciiDigit
  if digits = [] then none
  else some (if signAndRest.1 then -(digitsVal digits : Int) else (digitsVal digits : Int))

/-- The pagination values the GET handler computes and hands to the
database query. -/
structure PaginationQuery where
  limit : Int
  page : Int
  skip : Int
deriving DecidableEq, Repr

/-- Embedding of the pagination logic of `GET` (route.ts lines 266-296):
`limit` defaults to 20 and a numeric parameter is clamped into `[1, 100]`;
`page` defaults to 0 and a numeric parameter is clamped to at least 0; the
query skips `page * limit` records. -/
def getPagination (limitParam pageParam : Option String) : PaginationQuery :=
  let limit : Int :=
    match limitParam with
    | none => 20
    | some s =>
      match parseIntJs s with
      | none => 20
      | some n => max 1 (min 100 n)
  let page : Int :=
    match pageParam with
    | none => 0
    | some s =>
      match parseIntJs s with
      | none => 0
      | some n => max 0 n
  ⟨limit, page, page * limit⟩

/-- Shorthand for a string form-data entry. -/
def fdStr (s : String) : Option FormDataValue :=
  some (FormDataValue.str s)

/-- A family of concrete submissions sharing valid description, overview,
venue, location, date, time, audience, agenda, organizer and image values,
with the title, mode and tags entries supplied by the caller. -/
def exRawWith (title mode tags : Option FormDataValue) : RawEvent :=
  ⟨title, fdStr "An evening of talks", fdStr "Community talks", fdStr "Main Hall",
   fdStr "Lima", fdStr "2024-03-15", fdStr "2:30 PM", mode, fdStr "Developers",
   fdStr "[\"Intro\",\"Talks\"]", fdStr "ACME", tags, fdStr "https://example.com/a.png"⟩

/-- A fully valid concrete submission. -/
def exRawValid : RawEvent :=
  exRawWith (fdStr "Lean Meetup") (fdStr "online") (fdStr "[\"AI\",\"Cloud\"]")

/-- Valid except that the title consists solely of angle brackets. -/
def exRawAngleTitle : RawEvent :=
  exRawWith (fdStr "<>") (fdStr "online") (fdStr "[\"AI\",\"Cloud\"]")

/-- Valid submission whose title is an angle-bracketed space. -/
def exRawSpacedTitle : RawEvent :=
  exRawWith (fdStr "< >") (fdStr "online") (fdStr "[\"AI\",\"Cloud\"]")

/-- Valid submission whose tags value consists solely of angle brackets. -/
def exRawAngleTags : RawEvent :=
  exRawWith (fdStr "Lean Meetup") (fdStr "online") (fdStr "<>")

/-- Valid except that the mode entry is absent. -/
def exRawNoMode : RawEvent :=
  exRawWith (fdStr "Lean Meetup") none (fdStr "[\"AI\",\"Cloud\"]")

/-- Valid submission whose tags JSON contains an angle-bracketed element. -/
def exRawBracketTagElem : RawEvent :=
  exRawWith (fdStr "Lean Meetup") (fdStr "online") (fdStr "[\"<x>\"]")

/-- Valid submission whose tags value is comma-separated rather than JSON. -/
def exRawCommaTags : RawEvent :=
  exRawWith (fdStr "Lean Meetup") (fdStr "online") (fdStr "AI,Cloud")

/-- Valid except that the tags value is the empty JSON array. -/
def exRawEmptyTagsJson : RawEvent :=
  exRawWith (fdStr "Lean Meetup") (fdStr "online") (fdStr "[]")

/-- Valid except that the title entry is absent. -/
def exRawNoTitle : RawEvent :=
  exRawWith none (fdStr "online") (fdStr "[\"AI\",\"Cloud\"]")

/-- A family of concrete submissions sharing valid values everywhere except
the date and time entries, supplied by the caller. -/
def exRawWithDT (date time : Option FormDataValue) : RawEvent :=
  ⟨fdStr "Lean Meetup", fdStr "An evening of talks", fdStr "Community talks",
   fdStr "Main Hall", fdStr "Lima", date, time, fdStr "online", fdStr "Developers",
   fdStr "[\"Intro\",\"Talks\"]", fdStr "ACME", fdStr "[\"AI\",\"Cloud\"]",
   fdStr "https://example.com/a.png"⟩

/-- A raw entry counts as missing when it is absent or not a string — the
condition under which the validator treats a field as not supplied. -/
def isMissing : Option FormDataValue → Bool
  | some (FormDataValue.str _) => false
  | _ => true

/-- Claim-side rendering of a case-insensitive `AM` (`isPM = false`) or
`PM` (`isPM = true`) designator as two characters. -/
def amPm (a b : Char) (isPM : Bool) : Prop :=
  ((¬isPM ∧ (a = 'A' ∨ a = 'a')) ∨ (isPM ∧ (a = 'P' ∨ a = 'p'))) ∧ (b = 'M' ∨ b = 'm')

/-- Claim-side statement that a character list is exactly of the shape
`H:MM` or `HH:MM`, optionally suffixed (after optional whitespace) with a
case-insensitive `AM`/`PM` designator, with `hv`/`mv` the numeric values of
the hour and minute digit groups and `period` the parsed designator. -/
def ClaimTimePattern (cs : List Char) (hv mv : Nat) (period : Option Bool) : Prop :=
  ∃ hd m1 m2 suf,
    cs = hd ++ ':' :: m1 :: m2 :: suf ∧
    hd ≠ [] ∧ hd.length ≤ 2 ∧ (∀ c ∈ hd, isAsciiDigit c) ∧
    isAsciiDigit m1 ∧ isAsciiDigit m2 ∧
    hv = digitsVal hd ∧ mv = digitsVal [m1, m2] ∧
    ((suf = [] ∧ period = none) ∨
      (∃ ws a b isPM, suf = ws ++ [a, b] ∧ (∀ c ∈ ws, jsWhitespace c) ∧
        amPm a b isPM ∧ period = some isPM))

/-- Claim-side 12-hour to 24-hour conversion: `PM` adds 12 hours unless the
hour is already 12, `AM` zeroes a 12-hour value. -/
def claimConvert (hv : Nat) (period : Option Bool) : Nat :=
  match period with
  | some true => if hv ≠ 12 then hv + 12 else hv
  | some false => if hv = 12 then 0 else hv
  | none => hv

/-- Spec-side element cleanup for array fields, written from the spec
sentence: map every element (non-strings become the empty string, strings
are trimmed), drop elements that are empty after trimming, strip angle
brackets, and reject a list that is empty after the filtering. -/
def specElementCleanse (items : List Json) : Option (List String) :=
  let cleaned := ((items.map trimOrEmpty).filter (fun s => s != "")).map stripAnglesStr
  if cleaned = [] then none else some cleaned

/-- Spec-side array-field parser, written from the spec sentence: attempt
structured (JSON) parsing; on failure split on commas when a comma is
present, else treat the whole string as a single-element list; reject a
non-list result; then apply the element cleanup. -/
def specArrayParse (value : String) : Option (List String) :=
  match jsonParse value with
  | some (Json.arr items) => specElementCleanse items
  | some _ => none
  | none =>
    if value.data.contains ',' then
      specElementCleanse ((value.data.splitOn ',').map (fun l => Json.str (String.mk l)))
    else specElementCleanse [Json.str value]

/-- Claim-side contract of one text field: on a string-valued entry, the
validator records `"<name> cannot be empty"` whenever trimming and
angle-bracket stripping leave nothing, and any successfully returned record
carries the trimmed, stripped value truncated to `maxLength` (stripping
before truncation). -/
def TextFieldSpec (fieldGet : RawEvent → Option FormDataValue)
    (evGet : SanitizedEvent → String) (name : String) (maxLength : Nat) : Prop :=
  ∀ raw s, fieldGet raw = some (FormDataValue.str s) →
    (stripAngles (jsTrim s.data) = [] →
      (name ++ " cannot be empty") ∈ (validateAndSanitizeEvent raw).errors) ∧
    (∀ ev, (validateAndSanitizeEvent raw).sanitizedEvent = some ev →
      (evGet ev).data = (stripAngles (jsTrim s.data)).take maxLength)

/-! ### Helper lemmas -/

theorem string_mk_data : ∀ s : String, String.mk s.data = s :=
  fun ⟨_⟩ => rfl

theorem string_data_eq_nil (s : String) : s.data = [] ↔ s = "" := by
  cases s with
  | mk l =>
    constructor
    · intro h
      have hl : l = [] := h
      rw [hl]
    · intro h
      have hl : l = String.data "" := congrArg String.data h
      exact hl

theorem textFieldCheck_ok (n : String) (v : Option FormDataValue) (m : Nat)
    (h : (textFieldCheck n v m).2 = []) : ∃ x, (textFieldCheck n v m).1 = some x := by
  rcases v with _ | fv
  · simp [textFieldCheck] at h
  · rcases fv with s | _
    · by_cases hs : sanitizePlainText s m = ""
      · simp [textFieldCheck, hs] at h
      · exact ⟨sanitizePlainText s m, by simp [textFieldCheck, hs]⟩
    · simp [textFieldCheck] at h

theorem dateCheck_ok (v : Option FormDataValue)
    (h : (dateCheck v).2 = []) : ∃ x, (dateCheck v).1 = some x := by
  rcases v with _ | fv
  · simp [dateCheck] at h
  · rcases fv with s | _
    · rcases hd : normalizeDate s with _ | d
      · simp [dateCheck, hd] at h
      · exact ⟨d, by simp [dateCheck, hd]⟩
    · simp [dateCheck] at h

theorem timeCheck_ok (v : Option FormDataValue)
    (h : (timeCheck v).2 = []) : ∃ x, (timeCheck v).1 = some x := by
  rcases v with _ | fv
  · simp [timeCheck] at h
  · rcases fv with s | _
    · rcases ht : normalizeTime s with _ | t
      · simp [timeCheck, ht] at h
      · exact ⟨t, by simp [timeCheck, ht]⟩
    · simp [timeCheck] at h

theorem modeCheck_ok (v : Option FormDataValue)
    (h : (modeCheck v).2 = []) : ∃ x, (modeCheck v).1 = some x := by
  by_cases hc : modeRaw v ∈ ALLOWED_MODES
  · exact ⟨modeRaw v, by simp [modeCheck, hc]⟩
  · simp [modeCheck, hc] at h

theorem arrayFieldCheck_ok (n : String) (v : Option FormDataValue)
    (h : (arrayFieldCheck n v).2 = []) : ∃ x, (arrayFieldCheck n v).1 = some x := by
  rcases ha : (if rawFieldStr v = "" then none else parseStringArray (rawFieldStr v)) with _ | a
  · simp [arrayFieldCheck, ha] at h
  · exact ⟨a, by simp [arrayFieldCheck, ha]⟩

theorem imageCheck_ok (v : Option FormDataValue)
    (h : (imageCheck v).2 = []) : ∃ x, (imageCheck v).1 = some x := by
  rcases hi : ensureSecureImageUrl (rawFieldStr v) with _ | u
  · simp [imageCheck, hi] at h
  · exact ⟨u, by simp [imageCheck, hi]⟩

/-! ### C1 -/

/-- C1: for every raw submission, `validateAndSanitizeEvent` returns either
a complete `SanitizedEvent` together with an empty error list, or a
non-empty error list and no record — never both and never neither. -/
theorem c1_sum_type_result (raw : RawEvent) :
    (∃ ev, (validateAndSanitizeEvent raw).sanitizedEvent = some ev ∧
      (validateAndSanitizeEvent raw).errors = []) ∨
    ((validateAndSanitizeEvent raw).sanitizedEvent = none ∧
      (validateAndSanitizeEvent raw).errors ≠ []) := by
  by_cases h : eventErrors raw = []
  · left
    have hparts := h
    unfold eventErrors at hparts
    simp only [List.append_eq_nil] at hparts
    obtain ⟨⟨⟨⟨⟨⟨⟨⟨⟨⟨⟨⟨e1, e2⟩, e3⟩, e4⟩, e5⟩, e6⟩, e7⟩, e8⟩, e9⟩, e10⟩, e11⟩, e12⟩, e13⟩ := hparts
    obtain ⟨x1, h1⟩ := textFieldCheck_ok _ _ _ e1
    obtain ⟨x2, h2⟩ := textFieldCheck_ok _ _ _ e2
    obtain ⟨x3, h3⟩ := textFieldCheck_ok _ _ _ e3
    obtain ⟨x4, h4⟩ := textFieldCheck_ok _ _ _ e4
    obtain ⟨x5, h5⟩ := textFieldCheck_ok _ _ _ e5
    obtain ⟨x6, h6⟩ := textFieldCheck_ok _ _ _ e6
    obtain ⟨x7, h7⟩ := textFieldCheck_ok _ _ _ e7
    obtain ⟨x8, h8⟩ := dateCheck_ok _ e8
    obtain ⟨x9, h9⟩ := timeCheck_ok _ e9
    obtain ⟨x10, h10⟩ := modeCheck_ok _ e10
    obtain ⟨x11, h11⟩ := arrayFieldCheck_ok _ _ e11
    obtain ⟨x12, h12⟩ := arrayFieldCheck_ok _ _ e12
    obtain ⟨x13, h13⟩ := imageCheck_ok _ e13
    refine ⟨⟨x1, x2, x3, x4, x5, x8, x9, x10, x6, x11, x7, x12, x13⟩, ?_, ?_⟩
    · simp [validateAndSanitizeEvent, h, completeEvent, eventPartial,
        h1, h2, h3, h4, h5, h6, h7, h8, h9, h10, h11, h12, h13]
    · simp [validateAndSanitizeEvent, h]
  · right
    exact ⟨by simp [validateAndSanitizeEvent, h], by simpa [validateAndSanitizeEvent] using h⟩

theorem sanitized_fields (raw : RawEvent) (ev : SanitizedEvent)
    (h : (validateAndSanitizeEvent raw).sanitizedEvent = some ev) :
    (textFieldCheck "title" raw.title 100).1 = some ev.title ∧
    (textFieldCheck "description" raw.description 1000).1 = some ev.description ∧
    (textFieldCheck "overview" raw.overview 500).1 = some ev.overview ∧
    (textFieldCheck "venue" raw.venue 100).1 = some ev.venue ∧
    (textFieldCheck "location" raw.location 150).1 = some ev.location ∧
    (textFieldCheck "audience" raw.audience 150).1 = some ev.audience ∧
    (textFieldCheck "organizer" raw.organizer 150).1 = some ev.organizer ∧
    (dateCheck raw.date).1 = some ev.date ∧
    (timeCheck raw.time).1 = some ev.time ∧
    (modeCheck raw.mode).1 = some ev.mode ∧
    (arrayFieldCheck "agenda" raw.agenda).1 = some ev.agenda ∧
    (arrayFieldCheck "tags" raw.tags).1 = some ev.tags ∧
    (imageCheck raw.image).1 = some ev.image := by
  have he : eventErrors raw = [] := by
    by_contra he
    simp [validateAndSanitizeEvent, he] at h
  have hc : completeEvent (eventPartial raw) = some ev := by
    simpa [validateAndSanitizeEvent, he] using h
  have hp := he
  unfold eventErrors at hp
  simp only [List.append_eq_nil] at hp
  obtain ⟨⟨⟨⟨⟨⟨⟨⟨⟨⟨⟨⟨e1, e2⟩, e3⟩, e4⟩, e5⟩, e6⟩, e7⟩, e8⟩, e9⟩, e10⟩, e11⟩, e12⟩, e13⟩ := hp
  obtain ⟨x1, h1⟩ := textFieldCheck_ok _ _ _ e1
  obtain ⟨x2, h2⟩ := textFieldCheck_ok _ _ _ e2
  obtain ⟨x3, h3⟩ := textFieldCheck_ok _ _ _ e3
  obtain ⟨x4, h4⟩ := textFieldCheck_ok _ _ _ e4
  obtain ⟨x5, h5⟩ := textFieldCheck_ok _ _ _ e5
  obtain ⟨x6, h6⟩ := textFieldCheck_ok _ _ _ e6
  obtain ⟨x7, h7⟩ := textFieldCheck_ok _ _ _ e7
  obtain ⟨x8, h8⟩ := dateCheck_ok _ e8
  obtain ⟨x9, h9⟩ := timeCheck_ok _ e9
  obtain ⟨x10, h10⟩ := modeCheck_ok _ e10
  obtain ⟨x11, h11⟩ := arrayFieldCheck_ok _ _ e11
  obtain ⟨x12, h12⟩ := arrayFieldCheck_ok _ _ e12
  obtain ⟨x13, h13⟩ := imageCheck_ok _ e13
  simp only [completeEvent, eventPartial, h1, h2, h3, h4, h5, h6, h7, h8, h9, h10,
    h11, h12, h13, Option.some.injEq] at hc
  subst hc
  exact ⟨h1, h2, h3, h4, h5, h6, h7, h8, h9, h10, h11, h12, h13⟩

theorem sanitizePlainText_data (s : String) (m : Nat) :
    (sanitizePlainText s m).data = (stripAngles (jsTrim s.data)).take m := by
  unfold sanitizePlainText
  by_cases h : jsTrim s.data = []
  · simp [h, stripAngles]
  · simp [h]

theorem textFieldSpec_of (fieldGet : RawEvent → Option FormDataValue)
    (evGet : SanitizedEvent → String) (name : String) (maxLength : Nat)
    (hmem : ∀ raw x, x ∈ (textFieldCheck name (fieldGet raw) maxLength).2 →
      x ∈ eventErrors raw)
    (hval : ∀ raw ev, (validateAndSanitizeEvent raw).sanitizedEvent = some ev →
      (textFieldCheck name (fieldGet raw) maxLength).1 = some (evGet ev)) :
    TextFieldSpec fieldGet evGet name maxLength := by
  intro raw s hfield
  constructor
  · intro hempty
    have hclean : sanitizePlainText s maxLength = "" := by
      rw [← string_data_eq_nil, sanitizePlainText_data, hempty]
      simp
    have : (name ++ " cannot be empty") ∈ (textFieldCheck name (fieldGet raw) maxLength).2 := by
      rw [hfield]
      simp [textFieldCheck, hclean]
    simpa [validateAndSanitizeEvent] using hmem raw _ this
  · intro ev hev
    have hv := hval raw ev hev
    rw [hfield] at hv
    by_cases hs : sanitizePlainText s maxLength = ""
    · simp [textFieldCheck, hs] at hv
    · simp [textFieldCheck, hs] at hv
      rw [← hv, sanitizePlainText_data]

/-! ### C3 -/

/-- C3 (counterexample): the title value `"<>"` is non-empty after
trimming, yet the validator records `"title cannot be empty"` and returns
no record, contradicting the claim that this error is recorded only when
the trimmed value is empty (and that otherwise the stripped, truncated
value is used). -/
theorem c3_counterexample :
    jsTrim ("<>" : String).data ≠ [] ∧
    (validateAndSanitizeEvent exRawAngleTitle).errors = ["title cannot be empty"] ∧
    (validateAndSanitizeEvent exRawAngleTitle).sanitizedEvent = none := by
  exact ⟨by decide, rfl, rfl⟩

/-- C3 (amended): each text field is trimmed; if trimming and angle-bracket
stripping leave nothing (in particular if the trimmed value is empty) the
error `"<field> cannot be empty"` is recorded; otherwise all angle brackets
are stripped and the result truncated to the per-field maximum (title 100,
description 1000, overview 500, venue 100, location 150, audience 150,
organizer 150), stripping before truncation; the title scenario sanitizes
`"  <b>Hi</b>  "` to `"bHi/b"`. -/
theorem c3_text_field_sanitization :
    sanitizePlainText "  <b>Hi</b>  " 100 = "bHi/b" ∧
    (∀ s m, (sanitizePlainText s m).data = (stripAngles (jsTrim s.data)).take m) ∧
    TextFieldSpec RawEvent.title SanitizedEvent.title "title" 100 ∧
    TextFieldSpec RawEvent.description SanitizedEvent.description "description" 1000 ∧
    TextFieldSpec RawEvent.overview SanitizedEvent.overview "overview" 500 ∧
    TextFieldSpec RawEvent.venue SanitizedEvent.venue "venue" 100 ∧
    TextFieldSpec RawEvent.location SanitizedEvent.location "location" 150 ∧
    TextFieldSpec RawEvent.audience SanitizedEvent.audience "audience" 150 ∧
    TextFieldSpec RawEvent.organizer SanitizedEvent.organizer "organizer" 150 := by
  refine ⟨rfl, sanitizePlainText_data, ?_, ?_, ?_, ?_, ?_, ?_, ?_⟩ <;>
    apply textFieldSpec_of <;>
      first
      | (intro raw x hx
         unfold eventErrors
         simp only [List.mem_append]
         tauto)
      | (intro raw ev hev
         exact (sanitized_fields raw ev hev).1)
      | (intro raw ev hev
         exact (sanitized_fields raw ev hev).2.1)
      | (intro raw ev hev
         exact (sanitized_fields raw ev hev).2.2.1)
      | (intro raw ev hev
         exact (sanitized_fields raw ev hev).2.2.2.1)
      | (intro raw ev hev
         exact (sanitized_fields raw ev hev).2.2.2.2.1)
      | (intro raw ev hev
         exact (sanitized_fields raw ev hev).2.2.2.2.2.1)
      | (intro raw ev hev
         exact (sanitized_fields raw ev hev).2.2.2.2.2.2.1)

/-- Witness for C3 at concrete inputs: the valid submission's title is
sanitized by the trim-strip-truncate pipeline, and the all-brackets title
records its emptiness error. -/
theorem c3_text_field_sanitization_witness :
    ("Lean Meetup" : String).data =
      (stripAngles (jsTrim ("Lean Meetup" : String).data)).take 100 ∧
    ("title cannot be empty") ∈ (validateAndSanitizeEvent exRawAngleTitle).errors := by
  have h := c3_text_field_sanitization
  constructor
  · have := (h.2.2.1 exRawValid "Lean Meetup" rfl).2
      ⟨"Lean Meetup", "An evening of talks", "Community talks", "Main Hall", "Lima",
        "2024-03-15", "14:30", "online", "Developers", ["Intro", "Talks"], "ACME",
        ["AI", "Cloud"], "https://example.com/a.png"⟩ rfl
    simpa using this
  · exact (h.2.2.1 exRawAngleTitle "<>" rfl).1 (by decide)

theorem parseStringArray_eq_spec (v : String) : parseStringArray v = specArrayParse v := by
  unfold parseStringArray specArrayParse specElementCleanse
  cases jsonParse v with
  | none =>
    by_cases hc : v.data.contains ','
    · rw [hc]
      rfl
    · rw [Bool.not_eq_true] at hc
      rw [hc]
      rfl
  | some j => cases j <;> rfl

theorem specElementCleanse_spec (items : List Json) (l : List String)
    (h : specElementCleanse items = some l) :
    l ≠ [] ∧ ∀ x ∈ l, ∃ t : String, t ≠ "" ∧ x = stripAnglesStr t := by
  unfold specElementCleanse at h
  by_cases hl : ((items.map trimOrEmpty).filter (fun s => s != "")).map stripAnglesStr = []
  · simp [hl] at h
  · simp only [hl, if_neg, if_false, Option.some.injEq] at h
    subst h
    refine ⟨hl, ?_⟩
    intro x hx
    obtain ⟨y, hy, rfl⟩ := List.mem_map.mp hx
    have hf := List.mem_filter.mp hy
    exact ⟨y, by simpa using hf.2, rfl⟩

theorem parseStringArray_spec (v : String) (l : List String)
    (h : parseStringArray v = some l) :
    l ≠ [] ∧ ∀ x ∈ l, ∃ t : String, t ≠ "" ∧ x = stripAnglesStr t := by
  rw [parseStringArray_eq_spec] at h
  unfold specArrayParse at h
  rcases hj : jsonParse v with _ | j
  · rw [hj] at h
    by_cases hc : v.data.contains ','
    · simp only [hc, if_true] at h
      exact specElementCleanse_spec _ _ h
    · simp only [hc, if_false, Bool.false_eq_true] at h
      exact specElementCleanse_spec _ _ h
  · rw [hj] at h
    cases j with
    | arr items => exact specElementCleanse_spec _ _ h
    | null => simp at h
    | bool b => simp at h
    | num lx => simp at h
    | str s => simp at h
    | obj ms => simp at h

theorem arrayFieldCheck_some_inv (n : String) (v : Option FormDataValue) (a : List String)
    (h : (arrayFieldCheck n v).1 = some a) :
    rawFieldStr v ≠ "" ∧ parseStringArray (rawFieldStr v) = some a := by
  unfold arrayFieldCheck at h
  by_cases hr : rawFieldStr v = ""
  · simp [hr] at h
  · rcases hp : parseStringArray (rawFieldStr v) with _ | b
    · simp [hr, hp] at h
    · simp only [hr, if_neg, if_false, hp] at h
      exact ⟨hr, h⟩

/-! ### C5 -/

/-- C5: array parsing for agenda and tags first attempts JSON parsing, on
failure splits on commas when a comma is present and otherwise wraps the
whole string as a single-element list, rejects non-list results, maps
elements (non-strings to the empty string), trims, drops elements empty
after trimming, strips angle brackets, and rejects a list empty after the
filtering with the field's array error; in particular both the JSON form
and the comma form of `AI`/`Cloud` parse to the same two-element list and
the empty JSON array is rejected. -/
theorem c5_array_parsing :
    parseStringArray "[\"AI\",\"Cloud\"]" = some ["AI", "Cloud"] ∧
    parseStringArray "AI,Cloud" = some ["AI", "Cloud"] ∧
    parseStringArray "[]" = none ∧
    (∀ v, parseStringArray v = specArrayParse v) ∧
    (∀ raw s, raw.tags = some (FormDataValue.str s) → s ≠ "" →
      parseStringArray s = none →
      ("tags must be an array of strings with at least one item") ∈
        (validateAndSanitizeEvent raw).errors) ∧
    (∀ raw s, raw.agenda = some (FormDataValue.str s) → s ≠ "" →
      parseStringArray s = none →
      ("agenda must be an array of strings with at least one item") ∈
        (validateAndSanitizeEvent raw).errors) := by
  refine ⟨rfl, rfl, rfl, parseStringArray_eq_spec, ?_, ?_⟩
  · intro raw s hfield hne hparse
    have hcheck : arrayFieldCheck "tags" raw.tags =
        (none, ["tags must be an array of strings with at least one item"]) := by
      unfold arrayFieldCheck
      rw [hfield]
      simp [rawFieldStr, hne, hparse]
    have : ("tags must be an array of strings with at least one item") ∈
        eventErrors raw := by
      unfold eventErrors
      simp only [List.mem_append, hcheck]
      simp
    simpa [validateAndSanitizeEvent] using this
  · intro raw s hfield hne hparse
    have hcheck : arrayFieldCheck "agenda" raw.agenda =
        (none, ["agenda must be an array of strings with at least one item"]) := by
      unfold arrayFieldCheck
      rw [hfield]
      simp [rawFieldStr, hne, hparse]
    have : ("agenda must be an array of strings with at least one item") ∈
        eventErrors raw := by
      unfold eventErrors
      simp only [List.mem_append, hcheck]
      simp
    simpa [validateAndSanitizeEvent] using this

/-- Witness for C5 at a concrete input: the empty JSON array in the tags
entry produces the tags array error. -/
theorem c5_array_parsing_witness :
    ("tags must be an array of strings with at least one item") ∈
      (validateAndSanitizeEvent exRawEmptyTagsJson).errors :=
  c5_array_parsing.2.2.2.2.1 exRawEmptyTagsJson "[]" rfl (by decide) rfl

/-! ### C6 -/

/-- C6 (counterexample): the submission whose raw tags value is `"<>"`
validates successfully, and the returned record's tags list is `[""]` — its
single element is the empty string, contradicting the claim that every
element of `agenda`/`tags` is non-empty. -/
theorem c6_counterexample :
    Option.map SanitizedEvent.tags
      (validateAndSanitizeEvent exRawAngleTags).sanitizedEvent = some [""] := rfl

/-- C6 (amended): in every `SanitizedEvent` returned by the validator, the
`agenda` and `tags` fields contain at least one element, and every element
is obtained by stripping angle brackets from some string that was non-empty
after trimming — so an element is itself empty only when that string
consisted solely of `<`/`>` characters. -/
theorem c6_array_fields_shape (raw : RawEvent) (ev : SanitizedEvent)
    (h : (validateAndSanitizeEvent raw).sanitizedEvent = some ev) :
    (ev.agenda ≠ [] ∧ ∀ x ∈ ev.agenda, ∃ t : String, t ≠ "" ∧ x = stripAnglesStr t) ∧
    (ev.tags ≠ [] ∧ ∀ x ∈ ev.tags, ∃ t : String, t ≠ "" ∧ x = stripAnglesStr t) := by
  have hf := sanitized_fields raw ev h
  have hag := arrayFieldCheck_some_inv _ _ _ hf.2.2.2.2.2.2.2.2.2.2.1
  have htg := arrayFieldCheck_some_inv _ _ _ hf.2.2.2.2.2.2.2.2.2.2.2.1
  exact ⟨parseStringArray_spec _ _ hag.2, parseStringArray_spec _ _ htg.2⟩

/-- Witness for C6 at a concrete input: the valid submission's tags list is
non-empty. -/
theorem c6_array_fields_shape_witness : (["AI", "Cloud"] : List String) ≠ [] :=
  (c6_array_fields_shape exRawValid
    ⟨"Lean Meetup", "An evening of talks", "Community talks", "Main Hall", "Lima",
      "2024-03-15", "14:30", "online", "Developers", ["Intro", "Talks"], "ACME",
      ["AI", "Cloud"], "https://example.com/a.png"⟩ rfl).2.1

theorem textFieldCheck_missing (n : String) (v : Option FormDataValue) (m : Nat)
    (h : isMissing v = true) : textFieldCheck n v m = (none, [n ++ " is required"]) := by
  rcases v with _ | fv
  · rfl
  · rcases fv with s | _
    · simp [isMissing] at h
    · rfl

theorem dateCheck_missing (v : Option FormDataValue) (h : isMissing v = true) :
    dateCheck v = (none, ["date is required"]) := by
  rcases v with _ | fv
  · rfl
  · rcases fv with s | _
    · simp [isMissing] at h
    · rfl

theorem timeCheck_missing (v : Option FormDataValue) (h : isMissing v = true) :
    timeCheck v = (none, ["time is required"]) := by
  rcases v with _ | fv
  · rfl
  · rcases fv with s | _
    · simp [isMissing] at h
    · rfl

theorem modeCheck_missing (v : Option FormDataValue) (h : isMissing v = true) :
    modeCheck v = (none, ["mode must be one of: online, offline, hybrid"]) := by
  rcases v with _ | fv
  · rfl
  · rcases fv with s | _
    · simp [isMissing] at h
    · rfl

theorem arrayFieldCheck_missing (n : String) (v : Option FormDataValue)
    (h : isMissing v = true) :
    arrayFieldCheck n v = (none, [n ++ " must be an array of strings with at least one item"]) := by
  rcases v with _ | fv
  · rfl
  · rcases fv with s | _
    · simp [isMissing] at h
    · rfl

theorem imageCheck_missing (v : Option FormDataValue) (h : isMissing v = true) :
    imageCheck v = (none, ["image must be a valid HTTPS URL"]) := by
  rcases v with _ | fv
  · rfl
  · rcases fv with s | _
    · simp [isMissing] at h
    · rfl

theorem textFieldCheck_count_zero (n : String) (v : Option FormDataValue) (m : Nat)
    (msg : String) (h1 : msg ≠ n ++ " cannot be empty") (h2 : msg ≠ n ++ " is required") :
    ((textFieldCheck n v m).2).count msg = 0 := by
  apply List.count_eq_zero.mpr
  rcases v with _ | fv
  · simp [textFieldCheck, h2]
  · rcases fv with s | _
    · by_cases hs : sanitizePlainText s m = "" <;> simp [textFieldCheck, hs, h1]
    · simp [textFieldCheck, h2]

theorem dateCheck_count_zero (v : Option FormDataValue) (msg : String)
    (h1 : msg ≠ "date must be a valid date") (h2 : msg ≠ "date is required") :
    ((dateCheck v).2).count msg = 0 := by
  apply List.count_eq_zero.mpr
  rcases v with _ | fv
  · simp [dateCheck, h2]
  · rcases fv with s | _
    · rcases hd : normalizeDate s with _ | d <;> simp [dateCheck, hd, h1]
    · simp [dateCheck, h2]

theorem timeCheck_count_zero (v : Option FormDataValue) (msg : String)
    (h1 : msg ≠ "time must be in HH:MM or HH:MM AM/PM format") (h2 : msg ≠ "time is required") :
    ((timeCheck v).2).count msg = 0 := by
  apply List.count_eq_zero.mpr
  rcases v with _ | fv
  · simp [timeCheck, h2]
  · rcases fv with s | _
    · rcases ht : normalizeTime s with _ | t <;> simp [timeCheck, ht, h1]
    · simp [timeCheck, h2]

theorem modeCheck_count_zero (v : Option FormDataValue) (msg : String)
    (h : msg ≠ "mode must be one of: online, offline, hybrid") :
    ((modeCheck v).2).count msg = 0 := by
  apply List.count_eq_zero.mpr
  have hlit : ("mode must be one of: " ++ String.intercalate ", " ALLOWED_MODES) =
      "mode must be one of: online, offline, hybrid" := by decide
  by_cases hc : modeRaw v ∈ ALLOWED_MODES
  · simp [modeCheck, hc]
  · simp only [modeCheck, hc, if_neg, if_false]
    rw [hlit]
    simp [hc, h]

theorem arrayFieldCheck_count_zero (n : String) (v : Option FormDataValue) (msg : String)
    (h : msg ≠ n ++ " must be an array of strings with at least one item") :
    ((arrayFieldCheck n v).2).count msg = 0 := by
  apply List.count_eq_zero.mpr
  unfold arrayFieldCheck
  rcases ha : (if rawFieldStr v = "" then none else parseStringArray (rawFieldStr v)) with _ | a <;>
    simp [h]

theorem imageCheck_count_zero (v : Option FormDataValue) (msg : String)
    (h : msg ≠ "image must be a valid HTTPS URL") :
    ((imageCheck v).2).count msg = 0 := by
  apply List.count_eq_zero.mpr
  rcases hi : ensureSecureImageUrl (rawFieldStr v) with _ | u <;> simp [imageCheck, hi, h]

theorem ne_nil_of_count_one {l : List String} {a : String} (h : l.count a = 1) : l ≠ [] := by
  intro hl
  rw [hl] at h
  simp at h

/-! ### C7 -/

/-- C7 (counterexample): the submission lacking a mode entry has a missing
required field, yet the error list contains no `"mode is required"` entry
(the mode check emits its enumeration error instead), contradicting the
claim that every missing field yields exactly one `"<field> is required"`
entry. -/
theorem c7_counterexample :
    isMissing exRawNoMode.mode = true ∧
    (validateAndSanitizeEvent exRawNoMode).errors.count "mode is required" = 0 ∧
    (validateAndSanitizeEvent exRawNoMode).errors =
      ["mode must be one of: online, offline, hybrid"] ∧
    (validateAndSanitizeEvent exRawNoMode).sanitizedEvent = none :=
  ⟨rfl, rfl, rfl, rfl⟩

/-- C7 (amended): for every input, each missing entry among the seven text
fields, date and time contributes exactly one `"<field> is required"`
error; a missing mode, agenda, tags or image entry instead contributes
exactly one occurrence of its enumeration, array or URL error; and no
record is returned whenever any entry is missing. -/
theorem c7_missing_field_errors (raw : RawEvent) :
    (isMissing raw.title = true →
      (validateAndSanitizeEvent raw).errors.count "title is required" = 1) ∧
    (isMissing raw.description = true →
      (validateAndSanitizeEvent raw).errors.count "description is required" = 1) ∧
    (isMissing raw.overview = true →
      (validateAndSanitizeEvent raw).errors.count "overview is required" = 1) ∧
    (isMissing raw.venue = true →
      (validateAndSanitizeEvent raw).errors.count "venue is required" = 1) ∧
    (isMissing raw.location = true →
      (validateAndSanitizeEvent raw).errors.count "location is required" = 1) ∧
    (isMissing raw.audience = true →
      (validateAndSanitizeEvent raw).errors.count "audience is required" = 1) ∧
    (isMissing raw.organizer = true →
      (validateAndSanitizeEvent raw).errors.count "organizer is required" = 1) ∧
    (isMissing raw.date = true →
      (validateAndSanitizeEvent raw).errors.count "date is required" = 1) ∧
    (isMissing raw.time = true →
      (validateAndSanitizeEvent raw).errors.count "time is required" = 1) ∧
    (isMissing raw.mode = true →
      (validateAndSanitizeEvent raw).errors.count
        "mode must be one of: online, offline, hybrid" = 1) ∧
    (isMissing raw.agenda = true →
      (validateAndSanitizeEvent raw).errors.count
        "agenda must be an array of strings with at least one item" = 1) ∧
    (isMissing raw.tags = true →
      (validateAndSanitizeEvent raw).errors.count
        "tags must be an array of strings with at least one item" = 1) ∧
    (isMissing raw.image = true →
      (validateAndSanitizeEvent raw).errors.count "image must be a valid HTTPS URL" = 1) ∧
    ((isMissing raw.title = true ∨ isMissing raw.description = true ∨
      isMissing raw.overview = true ∨ isMissing raw.venue = true ∨
      isMissing raw.location = true ∨ isMissing raw.audience = true ∨
      isMissing raw.organizer = true ∨ isMissing raw.date = true ∨
      isMissing raw.time = true ∨ isMissing raw.mode = true ∨
      isMissing raw.agenda = true ∨ isMissing raw.tags = true ∨
      isMissing raw.image = true) →
      (validateAndSanitizeEvent raw).sanitizedEvent = none) := by
  have ct : isMissing raw.title = true →
      (eventErrors raw).count "title is required" = 1 := by
    intro hm
    unfold eventErrors
    simp only [List.count_append]
    rw [textFieldCheck_missing "title" raw.title 100 hm,
      textFieldCheck_count_zero "description" raw.description 1000 _ (by decide) (by decide),
      textFieldCheck_count_zero "overview" raw.overview 500 _ (by decide) (by decide),
      textFieldCheck_count_zero "venue" raw.venue 100 _ (by decide) (by decide),
      textFieldCheck_count_zero "location" raw.location 150 _ (by decide) (by decide),
      textFieldCheck_count_zero "audience" raw.audience 150 _ (by decide) (by decide),
      textFieldCheck_count_zero "organizer" raw.organizer 150 _ (by decide) (by decide),
      dateCheck_count_zero raw.date _ (by decide) (by decide),
      timeCheck_count_zero raw.time _ (by decide) (by decide),
      modeCheck_count_zero raw.mode _ (by decide),
      arrayFieldCheck_count_zero "agenda" raw.agenda _ (by decide),
      arrayFieldCheck_count_zero "tags" raw.tags _ (by decide),
      imageCheck_count_zero raw.image _ (by decide)]
    decide
  have cde : isMissing raw.description = true →
      (eventErrors raw).count "description is required" = 1 := by
    intro hm
    unfold eventErrors
    simp only [List.count_append]
    rw [textFieldCheck_missing "description" raw.description 1000 hm,
      textFieldCheck_count_zero "title" raw.title 100 _ (by decide) (by decide),
      textFieldCheck_count_zero "overview" raw.overview 500 _ (by decide) (by decide),
      textFieldCheck_count_zero "venue" raw.venue 100 _ (by decide) (by decide),
      textFieldCheck_count_zero "location" raw.location 150 _ (by decide) (by decide),
      textFieldCheck_count_zero "audience" raw.audience 150 _ (by decide) (by decide),
      textFieldCheck_count_zero "organizer" raw.organizer 150 _ (by decide) (by decide),
      dateCheck_count_zero raw.date _ (by decide) (by decide),
      timeCheck_count_zero raw.time _ (by decide) (by decide),
      modeCheck_count_zero raw.mode _ (by decide),
      arrayFieldCheck_count_zero "agenda" raw.agenda _ (by decide),
      arrayFieldCheck_count_zero "tags" raw.tags _ (by decide),
      imageCheck_count_zero raw.image _ (by decide)]
    decide
  have cov : isMissing raw.overview = true →
      (eventErrors raw).count "overview is required" = 1 := by
    intro hm
    unfold eventErrors
    simp only [List.count_append]
    rw [textFieldCheck_missing "overview" raw.overview 500 hm,
      textFieldCheck_count_zero "title" raw.title 100 _ (by decide) (by decide),
      textFieldCheck_count_zero "description" raw.description 1000 _ (by decide) (by decide),
      textFieldCheck_count_zero "venue" raw.venue 100 _ (by decide) (by decide),
      textFieldCheck_count_zero "location" raw.location 150 _ (by decide) (by decide),
      textFieldCheck_count_zero "audience" raw.audience 150 _ (by decide) (by decide),
      textFieldCheck_count_zero "organizer" raw.organizer 150 _ (by decide) (by decide),
      dateCheck_count_zero raw.date _ (by decide) (by decide),
      timeCheck_count_zero raw.time _ (by decide) (by decide),
      modeCheck_count_zero raw.mode _ (by decide),
      arrayFieldCheck_count_zero "agenda" raw.agenda _ (by decide),
      arrayFieldCheck_count_zero "tags" raw.tags _ (by decide),
      imageCheck_count_zero raw.image _ (by decide)]
    decide
  have cve : isMissing raw.venue = true →
      (eventErrors raw).count "venue is required" = 1 := by
    intro hm
    unfold eventErrors
    simp only [List.count_append]
    rw [textFieldCheck_missing "venue" raw.venue 100 hm,
      textFieldCheck_count_zero "title" raw.title 100 _ (by decide) (by decide),
      textFieldCheck_count_zero "description" raw.description 1000 _ (by decide) (by decide),
      textFieldCheck_count_zero "overview" raw.overview 500 _ (by decide) (by decide),
      textFieldCheck_count_zero "location" raw.location 150 _ (by decide) (by decide),
      textFieldCheck_count_zero "audience" raw.audience 150 _ (by decide) (by decide),
      textFieldCheck_count_zero "organizer" raw.organizer 150 _ (by decide) (by decide),
      dateCheck_count_zero raw.date _ (by decide) (by decide),
      timeCheck_count_zero raw.time _ (by decide) (by decide),
      modeCheck_count_zero raw.mode _ (by decide),
      arrayFieldCheck_count_zero "agenda" raw.agenda _ (by decide),
      arrayFieldCheck_count_zero "tags" raw.tags _ (by decide),
      imageCheck_count_zero raw.image _ (by decide)]
    decide
  have clo : isMissing raw.location = true →
      (eventErrors raw).count "location is required" = 1 := by
    intro hm
    unfold eventErrors
    simp only [List.count_append]
    rw [textFieldCheck_missing "location" raw.location 150 hm,
      textFieldCheck_count_zero "title" raw.title 100 _ (by decide) (by decide),
      textFieldCheck_count_zero "description" raw.description 1000 _ (by decide) (by decide),
      textFieldCheck_count_zero "overview" raw.overview 500 _ (by decide) (by decide),
      textFieldCheck_count_zero "venue" raw.venue 100 _ (by decide) (by decide),
      textFieldCheck_count_zero "audience" raw.audience 150 _ (by decide) (by decide),
      textFieldCheck_count_zero "organizer" raw.organizer 150 _ (by decide) (by decide),
      dateCheck_count_zero raw.date _ (by decide) (by decide),
      timeCheck_count_zero raw.time _ (by decide) (by decide),
      modeCheck_count_zero raw.mode _ (by decide),
      arrayFieldCheck_count_zero "agenda" raw.agenda _ (by decide),
      arrayFieldCheck_count_zero "tags" raw.tags _ (by decide),
      imageCheck_count_zero raw.image _ (by decide)]
    decide
  have cau : isMissing raw.audience = true →
      (eventErrors raw).count "audience is required" = 1 := by
    intro hm
    unfold eventErrors
    simp only [List.count_append]
    rw [textFieldCheck_missing "audience" raw.audience 150 hm,
      textFieldCheck_count_zero "title" raw.title 100 _ (by decide) (by decide),
      textFieldCheck_count_zero "description" raw.description 1000 _ (by decide) (by decide),
      textFieldCheck_count_zero "overview" raw.overview 500 _ (by decide) (by decide),
      textFieldCheck_count_zero "venue" raw.venue 100 _ (by decide) (by decide),
      textFieldCheck_count_zero "location" raw.location 150 _ (by decide) (by decide),
      textFieldCheck_count_zero "organizer" raw.organizer 150 _ (by decide) (by decide),
      dateCheck_count_zero raw.date _ (by decide) (by decide),
      timeCheck_count_zero raw.time _ (by decide) (by decide),
      modeCheck_count_zero raw.mode _ (by decide),
      arrayFieldCheck_count_zero "agenda" raw.agenda _ (by decide),
      arrayFieldCheck_count_zero "tags" raw.tags _ (by decide),
      imageCheck_count_zero raw.image _ (by decide)]
    decide
  have cor : isMissing raw.organizer = true →
      (eventErrors raw).count "organizer is required" = 1 := by
    intro hm
    unfold eventErrors
    simp only [List.count_append]
    rw [textFieldCheck_missing "organizer" raw.organizer 150 hm,
      textFieldCheck_count_zero "title" raw.title 100 _ (by decide) (by decide),
      textFieldCheck_count_zero "description" raw.description 1000 _ (by decide) (by decide),
      textFieldCheck_count_zero "overview" raw.overview 500 _ (by decide) (by decide),
      textFieldCheck_count_zero "venue" raw.venue 100 _ (by decide) (by decide),
      textFieldCheck_count_zero "location" raw.location 150 _ (by decide) (by decide),
      textFieldCheck_count_zero "audience" raw.audience 150 _ (by decide) (by decide),
      dateCheck_count_zero raw.date _ (by decide) (by decide),
      timeCheck_count_zero raw.time _ (by decide) (by decide),
      modeCheck_count_zero raw.mode _ (by decide),
      arrayFieldCheck_count_zero "agenda" raw.agenda _ (by decide),
      arrayFieldCheck_count_zero "tags" raw.tags _ (by decide),
      imageCheck_count_zero raw.image _ (by decide)]
    decide
  have cda : isMissing raw.date = true →
      (eventErrors raw).count "date is required" = 1 := by
    intro hm
    unfold eventErrors
    simp only [List.count_append]
    rw [dateCheck_missing raw.date hm,
      textFieldCheck_count_zero "title" raw.title 100 _ (by decide) (by decide),
      textFieldCheck_count_zero "description" raw.description 1000 _ (by decide) (by decide),
      textFieldCheck_count_zero "overview" raw.overview 500 _ (by decide) (by decide),
      textFieldCheck_count_zero "venue" raw.venue 100 _ (by decide) (by decide),
      textFieldCheck_count_zero "location" raw.location 150 _ (by decide) (by decide),
      textFieldCheck_count_zero "audience" raw.audience 150 _ (by decide) (by decide),
      textFieldCheck_count_zero "organizer" raw.organizer 150 _ (by decide) (by decide),
      timeCheck_count_zero raw.time _ (by decide) (by decide),
      modeCheck_count_zero raw.mode _ (by decide),
      arrayFieldCheck_count_zero "agenda" raw.agenda _ (by decide),
      arrayFieldCheck_count_zero "tags" raw.tags _ (by decide),
      imageCheck_count_zero raw.image _ (by decide)]
    decide
  have cti : isMissing raw.time = true →
      (eventErrors raw).count "time is required" = 1 := by
    intro hm
    unfold eventErrors
    simp only [List.count_append]
    rw [timeCheck_missing raw.time hm,
      textFieldCheck_count_zero "title" raw.title 100 _ (by decide) (by decide),
      textFieldCheck_count_zero "description" raw.description 1000 _ (by decide) (by decide),
      textFieldCheck_count_zero "overview" raw.overview 500 _ (by decide) (by decide),
      textFieldCheck_count_zero "venue" raw.venue 100 _ (by decide) (by decide),
      textFieldCheck_count_zero "location" raw.location 150 _ (by decide) (by decide),
      textFieldCheck_count_zero "audience" raw.audience 150 _ (by decide) (by decide),
      textFieldCheck_count_zero "organizer" raw.organizer 150 _ (by decide) (by decide),
      dateCheck_count_zero raw.date _ (by decide) (by decide),
      modeCheck_count_zero raw.mode _ (by decide),
      arrayFieldCheck_count_zero "agenda" raw.agenda _ (by decide),
      arrayFieldCheck_count_zero "tags" raw.tags _ (by decide),
      imageCheck_count_zero raw.image _ (by decide)]
    decide
  have cmo : isMissing raw.mode = true →
      (eventErrors raw).count "mode must be one of: online, offline, hybrid" = 1 := by
    intro hm
    unfold eventErrors
    simp only [List.count_append]
    rw [modeCheck_missing raw.mode hm,
      textFieldCheck_count_zero "title" raw.title 100 _ (by decide) (by decide),
      textFieldCheck_count_zero "description" raw.description 1000 _ (by decide) (by decide),
      textFieldCheck_count_zero "overview" raw.overview 500 _ (by decide) (by decide),
      textFieldCheck_count_zero "venue" raw.venue 100 _ (by decide) (by decide),
      textFieldCheck_count_zero "location" raw.location 150 _ (by decide) (by decide),
      textFieldCheck_count_zero "audience" raw.audience 150 _ (by decide) (by decide),
      textFieldCheck_count_zero "organizer" raw.organizer 150 _ (by decide) (by decide),
      dateCheck_count_zero raw.date _ (by decide) (by decide),
      timeCheck_count_zero raw.time _ (by decide) (by decide),
      arrayFieldCheck_count_zero "agenda" raw.agenda _ (by decide),
      arrayFieldCheck_count_zero "tags" raw.tags _ (by decide),
      imageCheck_count_zero raw.image _ (by decide)]
    decide
  have cag : isMissing raw.agenda = true →
      (eventErrors raw).count "agenda must be an array of strings with at least one item" = 1 := by
    intro hm
    unfold eventErrors
    simp only [List.count_append]
    rw [arrayFieldCheck_missing "agenda" raw.agenda hm,
      textFieldCheck_count_zero "title" raw.title 100 _ (by decide) (by decide),
      textFieldCheck_count_zero "description" raw.description 1000 _ (by decide) (by decide),
      textFieldCheck_count_zero "overview" raw.overview 500 _ (by decide) (by decide),
      textFieldCheck_count_zero "venue" raw.venue 100 _ (by decide) (by decide),
      textFieldCheck_count_zero "location" raw.location 150 _ (by decide) (by decide),
      textFieldCheck_count_zero "audience" raw.audience 150 _ (by decide) (by decide),
      textFieldCheck_count_zero "organizer" raw.organizer 150 _ (by decide) (by decide),
      dateCheck_count_zero raw.date _ (by decide) (by decide),
      timeCheck_count_zero raw.time _ (by decide) (by decide),
      modeCheck_count_zero raw.mode _ (by decide),
      arrayFieldCheck_count_zero "tags" raw.tags _ (by decide),
      imageCheck_count_zero raw.image _ (by decide)]
    decide
  have ctg : isMissing raw.tags = true →
      (eventErrors raw).count "tags must be an array of strings with at least one item" = 1 := by
    intro hm
    unfold eventErrors
    simp only [List.count_append]
    rw [arrayFieldCheck_missing "tags" raw.tags hm,
      textFieldCheck_count_zero "title" raw.title 100 _ (by decide) (by decide),
      textFieldCheck_count_zero "description" raw.description 1000 _ (by decide) (by decide),
      textFieldCheck_count_zero "overview" raw.overview 500 _ (by decide) (by decide),
      textFieldCheck_count_zero "venue" raw.venue 100 _ (by decide) (by decide),
      textFieldCheck_count_zero "location" raw.location 150 _ (by decide) (by decide),
      textFieldCheck_count_zero "audience" raw.audience 150 _ (by decide) (by decide),
      textFieldCheck_count_zero "organizer" raw.organizer 150 _ (by decide) (by decide),
      dateCheck_count_zero raw.date _ (by decide) (by decide),
      timeCheck_count_zero raw.time _ (by decide) (by decide),
      modeCheck_count_zero raw.mode _ (by decide),
      arrayFieldCheck_count_zero "agenda" raw.agenda _ (by decide),
      imageCheck_count_zero raw.image _ (by decide)]
    decide
  have cim : isMissing raw.image = true →
      (eventErrors raw).count "image must be a valid HTTPS URL" = 1 := by
    intro hm
    unfold eventErrors
    simp only [List.count_append]
    rw [imageCheck_missing raw.image hm,
      textFieldCheck_count_zero "title" raw.title 100 _ (by decide) (by decide),
      textFieldCheck_count_zero "description" raw.description 1000 _ (by decide) (by decide),
      textFieldCheck_count_zero "overview" raw.overview 500 _ (by decide) (by decide),
      textFieldCheck_count_zero "venue" raw.venue 100 _ (by decide) (by decide),
      textFieldCheck_count_zero "location" raw.location 150 _ (by decide) (by decide),
      textFieldCheck_count_zero "audience" raw.audience 150 _ (by decide) (by decide),
      textFieldCheck_count_zero "organizer" raw.organizer 150 _ (by decide) (by decide),
      dateCheck_count_zero raw.date _ (by decide) (by decide),
      timeCheck_count_zero raw.time _ (by decide) (by decide),
      modeCheck_count_zero raw.mode _ (by decide),
      arrayFieldCheck_count_zero "agenda" raw.agenda _ (by decide),
      arrayFieldCheck_count_zero "tags" raw.tags _ (by decide)]
    decide
  refine ⟨ct, cde, cov, cve, clo, cau, cor, cda, cti, cmo, cag, ctg, cim, ?_⟩
  intro hdisj
  have hne : eventErrors raw ≠ [] := by
    rcases hdisj with h | h | h | h | h | h | h | h | h | h | h | h | h
    · exact ne_nil_of_count_one (ct h)
    · exact ne_nil_of_count_one (cde h)
    · exact ne_nil_of_count_one (cov h)
    · exact ne_nil_of_count_one (cve h)
    · exact ne_nil_of_count_one (clo h)
    · exact ne_nil_of_count_one (cau h)
    · exact ne_nil_of_count_one (cor h)
    · exact ne_nil_of_count_one (cda h)
    · exact ne_nil_of_count_one (cti h)
    · exact ne_nil_of_count_one (cmo h)
    · exact ne_nil_of_count_one (cag h)
    · exact ne_nil_of_count_one (ctg h)
    · exact ne_nil_of_count_one (cim h)
  simp [validateAndSanitizeEvent, hne]

/-- Witness for C7 at a concrete input: the submission lacking a title gets
exactly one `"title is required"` error and no record. -/
theorem c7_missing_field_errors_witness :
    (validateAndSanitizeEvent exRawNoTitle).errors.count "title is required" = 1 ∧
    (validateAndSanitizeEvent exRawNoTitle).sanitizedEvent = none :=
  ⟨(c7_missing_field_errors exRawNoTitle).1 rfl,
   (c7_missing_field_errors exRawNoTitle).2.2.2.2.2.2.2.2.2.2.2.2.2 (Or.inl rfl)⟩

theorem isAsciiDigit_iff (c : Char) :
    isAsciiDigit c = true ↔ 48 ≤ c.toNat ∧ c.toNat ≤ 57 := by
  simp [isAsciiDigit]

theorem digit_not_ws (c : Char) (h : isAsciiDigit c = true) : jsWhitespace c = false := by
  rw [isAsciiDigit_iff] at h
  rw [jsWhitespace, decide_eq_false_iff_not]
  rintro (hw | hw | hw | hw | hw | hw | hw | hw | hw | hw | hw | hw | hw | hw | hw) <;> omega

theorem toDigit_toNat (k : Nat) (h : k < 10) : (toDigit k).toNat = 48 + k := by
  interval_cases k <;> decide

theorem isAsciiDigit_toDigit (k : Nat) (h : k < 10) : isAsciiDigit (toDigit k) = true := by
  interval_cases k <;> decide

theorem digitsVal_pair (a b : Nat) (ha : a < 10) (hb : b < 10) :
    digitsVal [toDigit a, toDigit b] = 10 * a + b := by
  unfold digitsVal
  simp only [List.foldl_cons, List.foldl_nil]
  rw [toDigit_toNat a ha, toDigit_toNat b hb]
  omega

theorem digitsVal_quad (a b c d : Nat) (ha : a < 10) (hb : b < 10) (hc : c < 10)
    (hd : d < 10) :
    digitsVal [toDigit a, toDigit b, toDigit c, toDigit d] =
      1000 * a + 100 * b + 10 * c + d := by
  unfold digitsVal
  simp only [List.foldl_cons, List.foldl_nil]
  rw [toDigit_toNat a ha, toDigit_toNat b hb, toDigit_toNat c hc, toDigit_toNat d hd]
  omega

theorem digitsVal_pair_le (a b : Char) (ha : isAsciiDigit a = true)
    (hb : isAsciiDigit b = true) : digitsVal [a, b] ≤ 99 := by
  rw [isAsciiDigit_iff] at ha hb
  unfold digitsVal
  simp only [List.foldl_cons, List.foldl_nil]
  omega

theorem digitsVal_quad_le (a b c d : Char) (ha : isAsciiDigit a = true)
    (hb : isAsciiDigit b = true) (hc : isAsciiDigit c = true)
    (hd : isAsciiDigit d = true) : digitsVal [a, b, c, d] ≤ 9999 := by
  rw [isAsciiDigit_iff] at ha hb hc hd
  unfold digitsVal
  simp only [List.foldl_cons, List.foldl_nil]
  omega

theorem takeWhile_all_append (p : Char → Bool) (l : List Char) (x : Char) (t : List Char)
    (hl : ∀ c ∈ l, p c = true) (hx : p x = false) :
    (l ++ x :: t).takeWhile p = l ∧ (l ++ x :: t).dropWhile p = x :: t := by
  induction l with
  | nil => simp [List.takeWhile_cons, List.dropWhile_cons, hx]
  | cons c cs ih =>
    have hc : p c = true := hl c (List.mem_cons_self c cs)
    have ih2 := ih (fun d hd => hl d (List.mem_cons_of_mem c hd))
    simp only [List.cons_append, List.takeWhile_cons, List.dropWhile_cons, hc, if_true]
    exact ⟨by rw [ih2.1], by rw [ih2.2]⟩

theorem dropWhile_of_head_false (p : Char → Bool) (l : List Char)
    (h : ∀ c ∈ l.head?, p c = false) : l.dropWhile p = l := by
  cases l with
  | nil => rfl
  | cons c cs =>
    have hc : p c = false := h c rfl
    simp [List.dropWhile_cons, hc]

theorem jsTrim_of_no_ws (l : List Char) (h : ∀ c ∈ l, jsWhitespace c = false) :
    jsTrim l = l := by
  unfold jsTrim
  have h1 : l.dropWhile jsWhitespace = l := by
    apply dropWhile_of_head_false
    intro c hc
    cases l with
    | nil => simp at hc
    | cons a t =>
      have hac : a = c := by simpa using hc
      exact hac ▸ h a (List.mem_cons_self a t)
  rw [h1]
  have h2 : l.reverse.dropWhile jsWhitespace = l.reverse := by
    apply dropWhile_of_head_false
    intro c hc
    cases hr : l.reverse with
    | nil => rw [hr] at hc; simp at hc
    | cons a t =>
      rw [hr] at hc
      have hca : a = c := by simpa using hc
      have haml : a ∈ l := by
        have : a ∈ l.reverse := by rw [hr]; exact List.mem_cons_self a t
        simpa using this
      exact hca ▸ h a haml
  rw [h2, List.reverse_reverse]

theorem timeSuffix_amPm_eval (a b : Char) (isPM : Bool) (hab : amPm a b isPM) :
    (if (a = 'A' ∨ a = 'a') ∧ (b = 'M' ∨ b = 'm') then some (some false)
     else if (a = 'P' ∨ a = 'p') ∧ (b = 'M' ∨ b = 'm') then some (some true)
     else none) = some (some isPM) := by
  rcases hab with ⟨h1, hb⟩
  rcases h1 with ⟨hnp, ha⟩ | ⟨hp, ha⟩
  · have hfalse : isPM = false := by
      cases isPM
      · rfl
      · exact absurd rfl hnp
    subst hfalse
    rw [if_pos ⟨ha, hb⟩]
  · have htrue : isPM = true := hp
    subst htrue
    rw [if_neg, if_pos ⟨ha, hb⟩]
    rintro ⟨ha', _⟩
    rcases ha with rfl | rfl <;> rcases ha' with h' | h' <;> exact absurd h' (by decide)

theorem timeSuffix_eq_some_iff (l : List Char) (p : Option Bool) :
    timeSuffix l = some p ↔
      (l = [] ∧ p = none) ∨
      (∃ ws a b isPM, l = ws ++ [a, b] ∧ (∀ c ∈ ws, jsWhitespace c = true) ∧
        amPm a b isPM ∧ p = some isPM) := by
  constructor
  · intro h
    unfold timeSuffix at h
    by_cases hnil : l = []
    · rw [if_pos hnil] at h
      injection h with h'
      exact Or.inl ⟨hnil, h'.symm⟩
    · rw [if_neg hnil] at h
      right
      split at h
      next a m heq =>
        have hl : l = l.takeWhile jsWhitespace ++ [a, m] := by
          conv_lhs => rw [← List.takeWhile_append_dropWhile jsWhitespace l]
          rw [heq]
        have hws : ∀ c ∈ l.takeWhile jsWhitespace, jsWhitespace c = true :=
          fun c hc => List.mem_takeWhile_imp hc
        split at h
        next hcond =>
          injection h with h'
          exact ⟨_, a, m, false, hl, hws, ⟨Or.inl ⟨by simp, hcond.1⟩, hcond.2⟩, h'.symm⟩
        next hcond1 =>
          split at h
          next hcond2 =>
            injection h with h'
            exact ⟨_, a, m, true, hl, hws, ⟨Or.inr ⟨rfl, hcond2.1⟩, hcond2.2⟩, h'.symm⟩
          next hcond2 => exact absurd h (by simp)
      next hother => exact absurd h (by simp)
  · rintro (⟨rfl, rfl⟩ | ⟨ws, a, b, isPM, rfl, hws, hab, rfl⟩)
    · rfl
    · have hanw : jsWhitespace a = false := by
        rcases hab with ⟨⟨_, ha⟩ | ⟨_, ha⟩, _⟩ <;> rcases ha with rfl | rfl <;> decide
      have hdw : (ws ++ [a, b]).dropWhile jsWhitespace = [a, b] :=
        (takeWhile_all_append jsWhitespace ws a [b] hws hanw).2
      have hne : ws ++ [a, b] ≠ [] := by simp
      unfold timeSuffix
      rw [if_neg hne, hdw]
      exact timeSuffix_amPm_eval a b isPM hab

theorem timeGroups_eq_some_iff (cs : List Char) (hv mv : Nat) (period : Option Bool) :
    timeGroups cs = some (hv, mv, period) ↔ ClaimTimePattern cs hv mv period := by
  constructor
  · intro h
    unfold timeGroups at h
    split at h
    · exact absurd h (by simp)
    next hguard =>
      push_neg at hguard
      split at h
      next m1 m2 rest2 heq =>
        split at h
        next hdig =>
          split at h
          next p heq2 =>
            injection h with h'
            obtain ⟨rfl, rfl, rfl⟩ : hv = digitsVal (cs.takeWhile isAsciiDigit) ∧
                mv = digitsVal [m1, m2] ∧ period = p := by
              have h1 := congrArg Prod.fst h'
              have h2 := congrArg (fun q => q.2.1) h'
              have h3 := congrArg (fun q => q.2.2) h'
              exact ⟨h1.symm, h2.symm, h3.symm⟩
            refine ⟨cs.takeWhile isAsciiDigit, m1, m2, rest2, ?_, ?_, ?_, ?_, hdig.1, hdig.2,
              rfl, rfl, ?_⟩
            · conv_lhs => rw [← List.takeWhile_append_dropWhile isAsciiDigit cs]
              rw [heq]
            · intro hnil
              exact hguard.1 (by rw [hnil]; rfl)
            · omega
            · exact fun c hc => List.mem_takeWhile_imp hc
            · rcases (timeSuffix_eq_some_iff rest2 period).mp heq2 with ⟨rfl, rfl⟩ | hsome
              · exact Or.inl ⟨rfl, rfl⟩
              · exact Or.inr hsome
          next heq2 => exact absurd h (by simp)
        next hdig => exact absurd h (by simp)
      next hother => exact absurd h (by simp)
  · rintro ⟨hd, m1, m2, suf, rfl, hne, hlen, hdig, hm1, hm2, rfl, rfl, hsuf⟩
    have hts : timeSuffix suf = some period := by
      apply (timeSuffix_eq_some_iff suf period).mpr
      rcases hsuf with ⟨rfl, rfl⟩ | hsome
      · exact Or.inl ⟨rfl, rfl⟩
      · exact Or.inr hsome
    have hcolon : isAsciiDigit ':' = false := by decide
    have htw := takeWhile_all_append isAsciiDigit hd ':' (m1 :: m2 :: suf) hdig hcolon
    have hlen0 : hd.length ≠ 0 := by
      intro h0
      exact hne (List.length_eq_zero.mp h0)
    unfold timeGroups
    rw [htw.1, htw.2, if_neg (by omega)]
    have hred : (match (':' :: m1 :: m2 :: suf : List Char) with
        | ':' :: m1 :: m2 :: rest2 =>
          if isAsciiDigit m1 ∧ isAsciiDigit m2 then
            match timeSuffix rest2 with
            | some p => some (digitsVal hd, digitsVal [m1, m2], p)
            | none => none
          else none
        | _ => none) =
        (if isAsciiDigit m1 ∧ isAsciiDigit m2 then
          match timeSuffix suf with
          | some p => some (digitsVal hd, digitsVal [m1, m2], p)
          | none => none
        else none) := rfl
    rw [hred, if_pos ⟨hm1, hm2⟩, hts]

theorem convert12to24_eq_claimConvert (h : Nat) (p : Option Bool) :
    convert12to24 h p = claimConvert h p := by
  cases p with
  | none => rfl
  | some b => cases b <;> rfl

theorem normalizeTime_sound (s : String) (r : String) (h : normalizeTime s = some r) :
    ∃ hv mv period, ClaimTimePattern (jsTrim s.data) hv mv period ∧
      claimConvert hv period ≤ 23 ∧ mv ≤ 59 ∧
      r = padTwo (claimConvert hv period) ++ ":" ++ padTwo mv := by
  unfold normalizeTime at h
  split at h
  next => exact absurd h (by simp)
  next h0 m0 p0 heq =>
    rw [convert12to24_eq_claimConvert] at h
    split at h
    next => exact absurd h (by simp)
    next hcond =>
      push_neg at hcond
      injection h with h'
      exact ⟨h0, m0, p0, (timeGroups_eq_some_iff _ _ _ _).mp heq, hcond.1, hcond.2, h'.symm⟩

theorem normalizeTime_complete (s : String) (hv mv : Nat) (period : Option Bool)
    (hpat : ClaimTimePattern (jsTrim s.data) hv mv period)
    (hh : claimConvert hv period ≤ 23) (hm : mv ≤ 59) :
    normalizeTime s = some (padTwo (claimConvert hv period) ++ ":" ++ padTwo mv) := by
  have heq : timeGroups (jsTrim s.data) = some (hv, mv, period) :=
    (timeGroups_eq_some_iff _ _ _ _).mpr hpat
  unfold normalizeTime
  rw [heq]
  have hred : (match (some (hv, mv, period) : Option (Nat × Nat × Option Bool)) with
      | none => (none : Option String)
      | some (h, m, p) =>
        if 23 < convert12to24 h p ∨ 59 < m then none
        else some (padTwo (convert12to24 h p) ++ ":" ++ padTwo m)) =
      (if 23 < convert12to24 hv period ∨ 59 < mv then none
       else some (padTwo (convert12to24 hv period) ++ ":" ++ padTwo mv)) := rfl
  rw [hred, convert12to24_eq_claimConvert, if_neg (by omega)]

theorem normalizeTime_reject (s : String) (hv mv : Nat) (period : Option Bool)
    (hpat : ClaimTimePattern (jsTrim s.data) hv mv period)
    (hcond : 23 < claimConvert hv period ∨ 59 < mv) : normalizeTime s = none := by
  have heq : timeGroups (jsTrim s.data) = some (hv, mv, period) :=
    (timeGroups_eq_some_iff _ _ _ _).mpr hpat
  unfold normalizeTime
  rw [heq]
  have hred : (match (some (hv, mv, period) : Option (Nat × Nat × Option Bool)) with
      | none => (none : Option String)
      | some (h, m, p) =>
        if 23 < convert12to24 h p ∨ 59 < m then none
        else some (padTwo (convert12to24 h p) ++ ":" ++ padTwo m)) =
      (if 23 < convert12to24 hv period ∨ 59 < mv then none
       else some (padTwo (convert12to24 hv period) ++ ":" ++ padTwo mv)) := rfl
  rw [hred, convert12to24_eq_claimConvert, if_pos (by omega)]

/-! ### C4 -/

/-- C4 (counterexample): the input `" 2:30"` is accepted by time
normalization although it is not of the pattern `H:MM`/`HH:MM` with an
optional AM/PM suffix — `timeGroups`, which recognizes exactly that pattern
(by `timeGroups_eq_some_iff`), rejects it; `normalizeTime` accepts it only
because it trims surrounding whitespace first, contradicting the claim that
exactly the stated pattern is accepted. -/
theorem c4_counterexample :
    normalizeTime " 2:30" = some "02:30" ∧
    timeGroups (" 2:30" : String).data = none :=
  ⟨rfl, rfl⟩

/-- C4 (amended): after trimming surrounding whitespace, time normalization
accepts exactly the pattern `H:MM` or `HH:MM`, optionally followed by
optional whitespace and a case-insensitive `AM`/`PM` designator; `PM` adds
12 hours unless the hour is already 12, `AM` zeroes a 12-hour value; the
match is rejected exactly when the converted hour exceeds 23 or the minute
exceeds 59, and otherwise the result is emitted zero-padded as `HH:MM` —
so `"2:30 PM"` normalizes to `"14:30"`, `"12:15 AM"` to `"00:15"`, and
`"25:00"` is rejected. -/
theorem c4_time_normalization :
    normalizeTime "2:30 PM" = some "14:30" ∧
    normalizeTime "12:15 AM" = some "00:15" ∧
    normalizeTime "25:00" = none ∧
    (∀ s r, normalizeTime s = some r →
      ∃ hv mv period, ClaimTimePattern (jsTrim s.data) hv mv period ∧
        claimConvert hv period ≤ 23 ∧ mv ≤ 59 ∧
        r = padTwo (claimConvert hv period) ++ ":" ++ padTwo mv) ∧
    (∀ s hv mv period, ClaimTimePattern (jsTrim s.data) hv mv period →
      claimConvert hv period ≤ 23 → mv ≤ 59 →
      normalizeTime s = some (padTwo (claimConvert hv period) ++ ":" ++ padTwo mv)) ∧
    (∀ s hv mv period, ClaimTimePattern (jsTrim s.data) hv mv period →
      23 < claimConvert hv period ∨ 59 < mv → normalizeTime s = none) :=
  ⟨rfl, rfl, rfl, normalizeTime_sound, normalizeTime_complete, normalizeTime_reject⟩

/-- Witness for C4 at a concrete pattern instance: the trimmed form of
`" 2:30"` matches the pattern with hour group 2 and minute group 30 and no
designator, and is emitted zero-padded. -/
theorem c4_time_normalization_witness :
    normalizeTime " 2:30" = some (padTwo (claimConvert 2 none) ++ ":" ++ padTwo 30) := by
  apply c4_time_normalization.2.2.2.2.1 " 2:30" 2 30 none
  · exact ⟨['2'], '3', '0', [], by decide, by decide, by decide, by decide, by decide,
      by decide, by decide, by decide, Or.inl ⟨rfl, rfl⟩⟩
  · decide
  · decide

theorem daysInMonth_pos (y m : Nat) : 1 ≤ daysInMonth y m := by
  unfold daysInMonth
  split_ifs <;> omega

theorem jsDateAfterDay_some (y m d : Nat) (rest : List Char) (dt : JsDate)
    (h : jsDateAfterDay y m d rest = some dt) :
    1 ≤ d ∧ d ≤ daysInMonth y m ∧ dt.year = y ∧ dt.month = m ∧ dt.day = d := by
  unfold jsDateAfterDay at h
  split at h
  · exact absurd h (by simp)
  next hd =>
    push_neg at hd
    refine ⟨by omega, hd.2, ?_⟩
    split at h
    · injection h with h'
      rw [← h']
      exact ⟨rfl, rfl, rfl⟩
    · split at h
      next ms heq =>
        injection h with h'
        rw [← h']
        exact ⟨rfl, rfl, rfl⟩
      next => exact absurd h (by simp)
    · exact absurd h (by simp)

theorem jsDateAfterMonth_some (y m : Nat) (rest : List Char) (dt : JsDate)
    (h : jsDateAfterMonth y m rest = some dt) :
    1 ≤ m ∧ m ≤ 12 ∧ dt.year = y ∧ dt.month = m ∧
      1 ≤ dt.day ∧ dt.day ≤ daysInMonth y m := by
  unfold jsDateAfterMonth at h
  split at h
  · exact absurd h (by simp)
  next hm =>
    push_neg at hm
    refine ⟨by omega, hm.2, ?_⟩
    split at h
    · injection h with h'
      rw [← h']
      exact ⟨rfl, rfl, Nat.le_refl 1, daysInMonth_pos y m⟩
    · split at h
      next ms heq =>
        injection h with h'
        rw [← h']
        exact ⟨rfl, rfl, Nat.le_refl 1, daysInMonth_pos y m⟩
      next => exact absurd h (by simp)
    · split at h
      next hdig =>
        have hd := jsDateAfterDay_some _ _ _ _ _ h
        refine ⟨hd.2.2.1, hd.2.2.2.1, ?_, ?_⟩
        · rw [hd.2.2.2.2]; exact hd.1
        · rw [hd.2.2.2.2]; exact hd.2.1
      next => exact absurd h (by simp)
    · exact absurd h (by simp)

theorem jsDateAfterYear_some (y : Nat) (rest : List Char) (dt : JsDate)
    (h : jsDateAfterYear y rest = some dt) :
    dt.year = y ∧ 1 ≤ dt.month ∧ dt.month ≤ 12 ∧
      1 ≤ dt.day ∧ dt.day ≤ daysInMonth y dt.month := by
  unfold jsDateAfterYear at h
  split at h
  · injection h with h'
    rw [← h']
    exact ⟨rfl, Nat.le_refl 1, show (1 : Nat) ≤ 12 by decide, Nat.le_refl 1,
      daysInMonth_pos y 1⟩
  · split at h
    next ms heq =>
      injection h with h'
      rw [← h']
      exact ⟨rfl, Nat.le_refl 1, show (1 : Nat) ≤ 12 by decide, Nat.le_refl 1,
        daysInMonth_pos y 1⟩
    next => exact absurd h (by simp)
  · split at h
    next hdig =>
      have hm := jsDateAfterMonth_some _ _ _ _ h
      refine ⟨hm.2.2.1, ?_, ?_, hm.2.2.2.2.1, ?_⟩
      · rw [hm.2.2.2.1]; exact hm.1
      · rw [hm.2.2.2.1]; exact hm.2.1
      · rw [hm.2.2.2.1]; exact hm.2.2.2.2.2
    next => exact absurd h (by simp)
  · exact absurd h (by simp)

theorem jsDateParse_bounds (s : String) (dt : JsDate) (h : jsDateParse s = some dt) :
    dt.year ≤ 9999 ∧ 1 ≤ dt.month ∧ dt.month ≤ 12 ∧
      1 ≤ dt.day ∧ dt.day ≤ daysInMonth dt.year dt.month := by
  unfold jsDateParse at h
  split at h
  next y1 y2 y3 y4 rest heq =>
    split at h
    next hdig =>
      have hy := jsDateAfterYear_some _ _ _ h
      have hval : digitsVal [y1, y2, y3, y4] ≤ 9999 :=
        digitsVal_quad_le y1 y2 y3 y4 hdig.1 hdig.2.1 hdig.2.2.1 hdig.2.2.2
      rw [hy.1]
      exact ⟨hval, hy.2.1, hy.2.2.1, hy.2.2.2.1, hy.2.2.2.2⟩
    next => exact absurd h (by simp)
  next => exact absurd h (by simp)

theorem daysInMonth_le (y m : Nat) : daysInMonth y m ≤ 31 := by
  unfold daysInMonth
  split_ifs <;> omega

theorem jsDateParse_mk_cons (y1 y2 y3 y4 : Char) (rest : List Char) :
    jsDateParse (String.mk (y1 :: y2 :: y3 :: y4 :: rest)) =
      (if isAsciiDigit y1 ∧ isAsciiDigit y2 ∧ isAsciiDigit y3 ∧ isAsciiDigit y4 then
        jsDateAfterYear (digitsVal [y1, y2, y3, y4]) rest
      else none) := rfl

theorem jsDateAfterYear_dash (y : Nat) (m1 m2 : Char) (rest2 : List Char) :
    jsDateAfterYear y ('-' :: m1 :: m2 :: rest2) =
      (if isAsciiDigit m1 ∧ isAsciiDigit m2 then
        jsDateAfterMonth y (digitsVal [m1, m2]) rest2
      else none) := rfl

theorem jsDateAfterMonth_dash (y m : Nat) (d1 d2 : Char) (rest3 : List Char) :
    jsDateAfterMonth y m ('-' :: d1 :: d2 :: rest3) =
      (if m = 0 ∨ 12 < m then none
       else if isAsciiDigit d1 ∧ isAsciiDigit d2 then
        jsDateAfterDay y m (digitsVal [d1, d2]) rest3
      else none) := rfl

theorem jsDateAfterDay_nil (y m d : Nat) :
    jsDateAfterDay y m d [] =
      (if d = 0 ∨ daysInMonth y m < d then none else some ⟨y, m, d, 0⟩) := rfl

theorem jsDateParse_iso (y m d : Nat) (hy : y ≤ 9999) (hm1 : 1 ≤ m) (hm2 : m ≤ 12)
    (hd1 : 1 ≤ d) (hd2 : d ≤ daysInMonth y m) :
    jsDateParse (padFour y ++ "-" ++ padTwo m ++ "-" ++ padTwo d) = some ⟨y, m, d, 0⟩ := by
  have hd31 : d ≤ 31 := le_trans hd2 (daysInMonth_le y m)
  have hstr : padFour y ++ "-" ++ padTwo m ++ "-" ++ padTwo d =
      String.mk [toDigit (y / 1000), toDigit (y / 100 % 10), toDigit (y / 10 % 10),
        toDigit (y % 10), '-', toDigit (m / 10), toDigit (m % 10), '-',
        toDigit (d / 10), toDigit (d % 10)] := rfl
  have hyv : digitsVal [toDigit (y / 1000), toDigit (y / 100 % 10), toDigit (y / 10 % 10),
      toDigit (y % 10)] = y := by
    rw [digitsVal_quad _ _ _ _ (by omega) (by omega) (by omega) (by omega)]
    omega
  have hmv : digitsVal [toDigit (m / 10), toDigit (m % 10)] = m := by
    rw [digitsVal_pair _ _ (by omega) (by omega)]
    omega
  have hdv : digitsVal [toDigit (d / 10), toDigit (d % 10)] = d := by
    rw [digitsVal_pair _ _ (by omega) (by omega)]
    omega
  rw [hstr, jsDateParse_mk_cons,
    if_pos ⟨isAsciiDigit_toDigit _ (by omega), isAsciiDigit_toDigit _ (by omega),
      isAsciiDigit_toDigit _ (by omega), isAsciiDigit_toDigit _ (by omega)⟩,
    hyv, jsDateAfterYear_dash,
    if_pos ⟨isAsciiDigit_toDigit _ (by omega), isAsciiDigit_toDigit _ (by omega)⟩,
    hmv, jsDateAfterMonth_dash, if_neg (by omega),
    if_pos ⟨isAsciiDigit_toDigit _ (by omega), isAsciiDigit_toDigit _ (by omega)⟩,
    hdv, jsDateAfterDay_nil, if_neg (by omega)]

theorem normalizeDate_sound (s r : String) (h : normalizeDate s = some r) :
    ∃ dt, jsDateParse s = some dt ∧ r = isoDatePart dt := by
  unfold normalizeDate at h
  rcases hjp : jsDateParse s with _ | dt
  · rw [hjp] at h
    exact absurd h (by simp)
  · rw [hjp] at h
    injection h with h'
    exact ⟨dt, rfl, h'.symm⟩

theorem normalizeDate_fixed (s r : String) (h : normalizeDate s = some r) :
    normalizeDate r = some r := by
  obtain ⟨dt, hjp, rfl⟩ := normalizeDate_sound s r h
  have hb := jsDateParse_bounds s dt hjp
  have hiso : jsDateParse (padFour dt.year ++ "-" ++ padTwo dt.month ++ "-" ++ padTwo dt.day) =
      some ⟨dt.year, dt.month, dt.day, 0⟩ :=
    jsDateParse_iso dt.year dt.month dt.day hb.1 hb.2.1 hb.2.2.1 hb.2.2.2.1 hb.2.2.2.2
  unfold normalizeDate isoDatePart
  rw [hiso]

/-! ### C9 -/

/-- C9: date normalization parses the raw string with `Date` (modelled by
the locale-independent ECMAScript Date Time String Format), records
`"date must be a valid date"` exactly on parse failure, and otherwise emits
the ISO calendar date `YYYY-MM-DD`, discarding the time-of-day — so
`"2024-03-15"` normalizes to itself, a date-time normalizes to its date
portion, and `"not-a-date"` is rejected with the error. -/
theorem c9_date_normalization :
    normalizeDate "2024-03-15" = some "2024-03-15" ∧
    normalizeDate "not-a-date" = none ∧
    normalizeDate "2024-03-15T18:45Z" = some "2024-03-15" ∧
    (∀ raw s, raw.date = some (FormDataValue.str s) → jsDateParse s = none →
      ("date must be a valid date") ∈ (validateAndSanitizeEvent raw).errors) ∧
    (∀ raw s ev, raw.date = some (FormDataValue.str s) →
      (validateAndSanitizeEvent raw).sanitizedEvent = some ev →
      ∃ dt, jsDateParse s = some dt ∧ ev.date = isoDatePart dt) := by
  refine ⟨rfl, rfl, rfl, ?_, ?_⟩
  · intro raw s hfield hparse
    have hcheck : dateCheck raw.date = (none, ["date must be a valid date"]) := by
      rw [hfield]
      simp [dateCheck, normalizeDate, hparse]
    have hmem : ("date must be a valid date") ∈ eventErrors raw := by
      unfold eventErrors
      simp only [List.mem_append, hcheck]
      simp
    simpa [validateAndSanitizeEvent] using hmem
  · intro raw s ev hfield hev
    have hval := (sanitized_fields raw ev hev).2.2.2.2.2.2.2.1
    rw [hfield] at hval
    unfold dateCheck at hval
    have hval2 : (match normalizeDate s with
        | none => ((none : Option String), ["date must be a valid date"])
        | some d => (some d, [])).1 = some ev.date := hval
    rcases hnd : normalizeDate s with _ | dstr
    · rw [hnd] at hval2
      exact absurd hval2 (by simp)
    · rw [hnd] at hval2
      have hde : dstr = ev.date := by
        simpa using hval2
      obtain ⟨dt, hjp, hr⟩ := normalizeDate_sound s dstr hnd
      exact ⟨dt, hjp, by rw [← hde]; exact hr⟩

/-- Witness for C9 at a concrete input: the submission with date
`"not-a-date"` gets the date validity error. -/
theorem c9_date_normalization_witness :
    ("date must be a valid date") ∈
      (validateAndSanitizeEvent (exRawWithDT (fdStr "not-a-date") (fdStr "2:30 PM"))).errors :=
  c9_date_normalization.2.2.2.1 (exRawWithDT (fdStr "not-a-date") (fdStr "2:30 PM"))
    "not-a-date" rfl rfl

theorem normalizeTime_padded (h24 mv : Nat) (hh : h24 ≤ 23) (hm : mv ≤ 59) :
    normalizeTime (padTwo h24 ++ ":" ++ padTwo mv) = some (padTwo h24 ++ ":" ++ padTwo mv) := by
  have hdata : (padTwo h24 ++ ":" ++ padTwo mv).data =
      [toDigit (h24 / 10), toDigit (h24 % 10), ':', toDigit (mv / 10), toDigit (mv % 10)] := rfl
  have hnw : ∀ c ∈ (padTwo h24 ++ ":" ++ padTwo mv).data, jsWhitespace c = false := by
    rw [hdata]
    intro c hc
    simp only [List.mem_cons, List.not_mem_nil, or_false] at hc
    rcases hc with rfl | rfl | rfl | rfl | rfl
    · exact digit_not_ws _ (isAsciiDigit_toDigit _ (by omega))
    · exact digit_not_ws _ (isAsciiDigit_toDigit _ (by omega))
    · decide
    · exact digit_not_ws _ (isAsciiDigit_toDigit _ (by omega))
    · exact digit_not_ws _ (isAsciiDigit_toDigit _ (by omega))
  have htrim : jsTrim (padTwo h24 ++ ":" ++ padTwo mv).data =
      (padTwo h24 ++ ":" ++ padTwo mv).data := jsTrim_of_no_ws _ hnw
  have hpat : ClaimTimePattern (jsTrim (padTwo h24 ++ ":" ++ padTwo mv).data) h24 mv none := by
    rw [htrim, hdata]
    refine ⟨[toDigit (h24 / 10), toDigit (h24 % 10)], toDigit (mv / 10), toDigit (mv % 10),
      [], rfl, by simp, by simp, ?_, isAsciiDigit_toDigit _ (by omega),
      isAsciiDigit_toDigit _ (by omega), ?_, ?_, Or.inl ⟨rfl, rfl⟩⟩
    · intro c hc
      simp only [List.mem_cons, List.not_mem_nil, or_false] at hc
      rcases hc with rfl | rfl
      · exact isAsciiDigit_toDigit _ (by omega)
      · exact isAsciiDigit_toDigit _ (by omega)
    · rw [digitsVal_pair _ _ (by omega) (by omega)]
      omega
    · rw [digitsVal_pair _ _ (by omega) (by omega)]
      omega
  exact normalizeTime_complete _ h24 mv none hpat hh hm

theorem normalizeTime_fixed (s r : String) (h : normalizeTime s = some r) :
    normalizeTime r = some r := by
  obtain ⟨hv, mv, period, _, hh, hm, rfl⟩ := normalizeTime_sound s r h
  exact normalizeTime_padded (claimConvert hv period) mv hh hm

theorem sanitizePlainText_fixed (s : String) (m : Nat)
    (h : jsTrim (sanitizePlainText s m).data = (sanitizePlainText s m).data) :
    sanitizePlainText (sanitizePlainText s m) m = sanitizePlainText s m := by
  have hod : (sanitizePlainText s m).data = (stripAngles (jsTrim s.data)).take m :=
    sanitizePlainText_data s m
  by_cases hnil : jsTrim (sanitizePlainText s m).data = []
  · have hdat : (sanitizePlainText s m).data = [] := by rw [← h]; exact hnil
    have hstr : sanitizePlainText s m = "" := (string_data_eq_nil _).mp hdat
    rw [hstr]
    rfl
  · show (if jsTrim (sanitizePlainText s m).data = [] then ""
      else String.mk ((stripAngles (jsTrim (sanitizePlainText s m).data)).take m)) =
      sanitizePlainText s m
    rw [if_neg hnil, h]
    have hstrip : stripAngles (sanitizePlainText s m).data = (sanitizePlainText s m).data := by
      apply List.filter_eq_self.mpr
      intro c hc
      rw [hod] at hc
      have hc2 : c ∈ stripAngles (jsTrim s.data) := List.take_subset _ _ hc
      exact (List.mem_filter.mp hc2).2
    rw [hstrip]
    have hlen : (sanitizePlainText s m).data.length ≤ m := by
      rw [hod, List.length_take]
      exact min_le_left _ _
    rw [List.take_of_length_le hlen, string_mk_data]

theorem textFieldCheck_some_inv (n : String) (v : Option FormDataValue) (m : Nat)
    (x : String) (h : (textFieldCheck n v m).1 = some x) :
    ∃ s, v = some (FormDataValue.str s) ∧ x = sanitizePlainText s m := by
  rcases v with _ | fv
  · simp [textFieldCheck] at h
  · rcases fv with s | _
    · by_cases hs : sanitizePlainText s m = ""
      · simp [textFieldCheck, hs] at h
      · refine ⟨s, rfl, ?_⟩
        simp [textFieldCheck, hs] at h
        exact h.symm
    · simp [textFieldCheck] at h

theorem dateCheck_some_inv (v : Option FormDataValue) (x : String)
    (h : (dateCheck v).1 = some x) : ∃ s, normalizeDate s = some x := by
  rcases v with _ | fv
  · simp [dateCheck] at h
  · rcases fv with s | _
    · rcases hnd : normalizeDate s with _ | d
      · simp [dateCheck, hnd] at h
      · refine ⟨s, ?_⟩
        simp [dateCheck, hnd] at h
        rw [hnd, h]
    · simp [dateCheck] at h

theorem timeCheck_some_inv (v : Option FormDataValue) (x : String)
    (h : (timeCheck v).1 = some x) : ∃ s, normalizeTime s = some x := by
  rcases v with _ | fv
  · simp [timeCheck] at h
  · rcases fv with s | _
    · rcases hnt : normalizeTime s with _ | t
      · simp [timeCheck, hnt] at h
      · refine ⟨s, ?_⟩
        simp [timeCheck, hnt] at h
        rw [hnt, h]
    · simp [timeCheck] at h

theorem modeCheck_some_inv (v : Option FormDataValue) (x : String)
    (h : (modeCheck v).1 = some x) : x ∈ ALLOWED_MODES ∧ jsToLower (jsTrimStr x) = x := by
  unfold modeCheck at h
  by_cases hc : ALLOWED_MODES.contains (modeRaw v) = true
  · rw [if_pos hc] at h
    have hx : modeRaw v = x := by simpa using h
    have hmem : x ∈ ALLOWED_MODES := by
      rw [← hx]
      simpa using hc
    refine ⟨hmem, ?_⟩
    have : x = "online" ∨ x = "offline" ∨ x = "hybrid" := by simpa [ALLOWED_MODES] using hmem
    rcases this with rfl | rfl | rfl <;> rfl
  · rw [if_neg hc] at h
    simp at h

theorem string_data_append (s t : String) : (s ++ t).data = s.data ++ t.data := rfl

theorem char_toNat_ofNat (n : Nat) (h : n < 55296) : (Char.ofNat n).toNat = n := by
  have hv : n.isValidChar := Or.inl h
  unfold Char.ofNat
  rw [dif_pos hv]
  rfl

theorem jsLowerChar_toNat_of_upper (c : Char) (h : 65 ≤ c.toNat ∧ c.toNat ≤ 90) :
    (jsLowerChar c).toNat = c.toNat + 32 := by
  unfold jsLowerChar
  rw [if_pos h]
  exact char_toNat_ofNat _ (by omega)

theorem jsLowerChar_of_not_upper (c : Char) (h : ¬(65 ≤ c.toNat ∧ c.toNat ≤ 90)) :
    jsLowerChar c = c := by
  unfold jsLowerChar
  rw [if_neg h]

theorem jsLowerChar_idem (c : Char) : jsLowerChar (jsLowerChar c) = jsLowerChar c := by
  by_cases h : 65 ≤ c.toNat ∧ c.toNat ≤ 90
  · apply jsLowerChar_of_not_upper
    rw [jsLowerChar_toNat_of_upper c h]
    omega
  · rw [jsLowerChar_of_not_upper c h]
    exact jsLowerChar_of_not_upper c h

theorem map_jsLower_idem (l : List Char) :
    (l.map jsLowerChar).map jsLowerChar = l.map jsLowerChar := by
  rw [List.map_map]
  exact List.map_congr_left fun a _ => jsLowerChar_idem a

theorem isAlphaChar_iff (c : Char) : isAlphaChar c = true ↔
    (65 ≤ c.toNat ∧ c.toNat ≤ 90) ∨ (97 ≤ c.toNat ∧ c.toNat ≤ 122) := by
  simp [isAlphaChar]

theorem isAlphaChar_jsLower (c : Char) (h : isAlphaChar c = true) :
    isAlphaChar (jsLowerChar c) = true := by
  rw [isAlphaChar_iff] at h ⊢
  by_cases hu : 65 ≤ c.toNat ∧ c.toNat ≤ 90
  · rw [jsLowerChar_toNat_of_upper c hu]
    omega
  · rw [jsLowerChar_of_not_upper c hu]
    exact h

theorem isSchemeChar_of_alpha (c : Char) (h : isAlphaChar c = true) :
    isSchemeChar c = true := by
  unfold isSchemeChar
  rw [h]
  rfl

theorem isSchemeChar_jsLower (c : Char) (h : isSchemeChar c = true) :
    isSchemeChar (jsLowerChar c) = true := by
  by_cases hu : 65 ≤ c.toNat ∧ c.toNat ≤ 90
  · have ha : isAlphaChar (jsLowerChar c) = true := by
      rw [isAlphaChar_iff, jsLowerChar_toNat_of_upper c hu]
      omega
    exact isSchemeChar_of_alpha _ ha
  · rw [jsLowerChar_of_not_upper c hu]
    exact h

theorem urlAuthorityEnd_jsLower (c : Char) (h : urlAuthorityEnd c = false) :
    urlAuthorityEnd (jsLowerChar c) = false := by
  by_cases hu : 65 ≤ c.toNat ∧ c.toNat ≤ 90
  · have ht : (jsLowerChar c).toNat = c.toNat + 32 := jsLowerChar_toNat_of_upper c hu
    have h1 : jsLowerChar c ≠ '/' := by
      intro heq
      have h2 := congrArg Char.toNat heq
      rw [ht] at h2
      have h3 : ('/' : Char).toNat = 47 := by decide
      rw [h3] at h2
      omega
    have h4 : jsLowerChar c ≠ '?' := by
      intro heq
      have h2 := congrArg Char.toNat heq
      rw [ht] at h2
      have h3 : ('?' : Char).toNat = 63 := by decide
      rw [h3] at h2
      omega
    have h5 : jsLowerChar c ≠ '#' := by
      intro heq
      have h2 := congrArg Char.toNat heq
      rw [ht] at h2
      have h3 : ('#' : Char).toNat = 35 := by decide
      rw [h3] at h2
      omega
    simp [urlAuthorityEnd, h1, h4, h5]
  · rw [jsLowerChar_of_not_upper c hu]
    exact h

theorem dropWhile_head_not (p : Char → Bool) (l : List Char) (x : Char) (xs : List Char)
    (h : l.dropWhile p = x :: xs) : p x = false := by
  induction l with
  | nil => simp at h
  | cons c cs ih =>
    rw [List.dropWhile_cons] at h
    by_cases hc : p c = true
    · rw [if_pos hc] at h
      exact ih h
    · rw [if_neg hc] at h
      injection h with h1 _
      rw [← h1]
      exact Bool.eq_false_iff.mpr hc

theorem parseUrlAfterScheme_slashes (scheme r3 : List Char) :
    parseUrlAfterScheme scheme (':' :: '/' :: '/' :: r3) =
      (if r3.takeWhile (fun c => !urlAuthorityEnd c) = [] then none
       else
        some (String.mk (scheme.map jsLowerChar) ++ ":",
          String.mk (scheme.map jsLowerChar) ++ ":" ++ "//" ++
            String.mk ((r3.takeWhile (fun c => !urlAuthorityEnd c)).map jsLowerChar) ++
            (if r3.dropWhile (fun c => !urlAuthorityEnd c) = [] then "/"
             else String.mk (r3.dropWhile (fun c => !urlAuthorityEnd c))))) := rfl

theorem parseUrl_data_eq (value : String) (c0 : Char) (rest : List Char)
    (h : value.data = c0 :: rest) :
    parseUrl value =
      (if isAlphaChar c0 then
        parseUrlAfterScheme ((c0 :: rest).takeWhile isSchemeChar)
          ((c0 :: rest).dropWhile isSchemeChar)
      else none) := by
  unfold parseUrl
  rw [h]

theorem parseUrl_serialization_parses (scheme authority : List Char) (path : String)
    (hs0 : ∃ a t, scheme = a :: t ∧ isAlphaChar a = true)
    (hsall : ∀ c ∈ scheme, isSchemeChar c = true)
    (hane : authority ≠ [])
    (haall : ∀ c ∈ authority, urlAuthorityEnd c = false)
    (hpath : ∃ px prest, path.data = px :: prest ∧ urlAuthorityEnd px = true) :
    parseUrl (String.mk (scheme.map jsLowerChar) ++ ":" ++ "//" ++
        String.mk (authority.map jsLowerChar) ++ path) =
      some (String.mk (scheme.map jsLowerChar) ++ ":",
        String.mk (scheme.map jsLowerChar) ++ ":" ++ "//" ++
          String.mk (authority.map jsLowerChar) ++ path) := by
  obtain ⟨a, t, rfl, ha⟩ := hs0
  obtain ⟨px, prest, hpd, hpe⟩ := hpath
  have hdata : (String.mk ((a :: t).map jsLowerChar) ++ ":" ++ "//" ++
      String.mk (authority.map jsLowerChar) ++ path).data =
      jsLowerChar a :: (t.map jsLowerChar ++ ':' :: '/' :: '/' ::
        (authority.map jsLowerChar ++ path.data)) := by
    simp [string_data_append]
  have hsa : isSchemeChar (jsLowerChar a) = true :=
    isSchemeChar_jsLower a (isSchemeChar_of_alpha a ha)
  have htw2 := takeWhile_all_append isSchemeChar (t.map jsLowerChar) ':'
    ('/' :: '/' :: (authority.map jsLowerChar ++ path.data))
    (fun c hc => by
      obtain ⟨d, hd, rfl⟩ := List.mem_map.mp hc
      exact isSchemeChar_jsLower d (hsall d (List.mem_cons_of_mem a hd)))
    (by decide)
  rw [parseUrl_data_eq _ _ _ hdata, if_pos (isAlphaChar_jsLower a ha),
    List.takeWhile_cons, if_pos hsa, List.dropWhile_cons, if_pos hsa, htw2.1, htw2.2,
    parseUrlAfterScheme_slashes, hpd]
  have htw3 := takeWhile_all_append (fun c => !urlAuthorityEnd c)
    (authority.map jsLowerChar) px prest
    (fun c hc => by
      obtain ⟨d, hd, rfl⟩ := List.mem_map.mp hc
      simp [urlAuthorityEnd_jsLower d (haall d hd)])
    (by simp [hpe])
  rw [htw3.1, htw3.2, if_neg (by simp [hane]),
    if_neg (by simp : ¬(px :: prest = [])), ← hpd, string_mk_data]
  have hsidem : (jsLowerChar a :: t.map jsLowerChar).map jsLowerChar =
      jsLowerChar a :: t.map jsLowerChar := by
    have h1 := map_jsLower_idem (a :: t)
    simpa using h1
  rw [hsidem, map_jsLower_idem]
  rfl

theorem parseUrl_roundtrip (u protocol r : String) (h : parseUrl u = some (protocol, r)) :
    parseUrl r = some (protocol, r) := by
  unfold parseUrl at h
  split at h
  next => exact absurd h (by simp)
  next c0 crest heq0 =>
    split at h
    next halpha =>
      unfold parseUrlAfterScheme at h
      split at h
      next r3 heq3 =>
        split at h
        next => exact absurd h (by simp)
        next hane =>
          injection h with h'
          injection h' with hp hr
          have hsch : u.data.takeWhile isSchemeChar = c0 :: crest.takeWhile isSchemeChar := by
            rw [heq0, List.takeWhile_cons, if_pos (isSchemeChar_of_alpha c0 halpha)]
          have hser := parseUrl_serialization_parses (u.data.takeWhile isSchemeChar)
            (r3.takeWhile (fun c => !urlAuthorityEnd c))
            (if r3.dropWhile (fun c => !urlAuthorityEnd c) = [] then "/"
             else String.mk (r3.dropWhile (fun c => !urlAuthorityEnd c)))
            ⟨c0, crest.takeWhile isSchemeChar, hsch, halpha⟩
            (fun c hc => List.mem_takeWhile_imp hc)
            hane
            (fun c hc => by
              have := List.mem_takeWhile_imp hc
              simpa using this)
            ?_
          · rw [hr, hp] at hser
            exact hser
          · by_cases ht : r3.dropWhile (fun c => !urlAuthorityEnd c) = []
            · refine ⟨'/', [], ?_, by decide⟩
              rw [if_pos ht]
            · rcases htl : r3.dropWhile (fun c => !urlAuthorityEnd c) with _ | ⟨x, xs⟩
              · exact absurd htl ht
              · refine ⟨x, xs, ?_, ?_⟩
                · rw [if_neg (by simp : ¬(x :: xs = ([] : List Char)))]
                · have := dropWhile_head_not _ _ _ _ htl
                  simpa using this
      next => exact absurd h (by simp)
    next => exact absurd h (by simp)

theorem ensureSecureImageUrl_fixed (u r : String) (h : ensureSecureImageUrl u = some r) :
    ensureSecureImageUrl r = some r := by
  unfold ensureSecureImageUrl at h ⊢
  rcases hp : parseUrl u with _ | pr
  · rw [hp] at h
    exact absurd h (by simp)
  · rw [hp] at h
    obtain ⟨protocol, serialized⟩ := pr
    have h2 : (if protocol = "https:" then some serialized else none) = some r := h
    by_cases hh : protocol = "https:"
    · rw [if_pos hh] at h2
      injection h2 with h3
      subst h3
      have hrt := parseUrl_roundtrip u protocol serialized hp
      rw [hrt]
      show (if protocol = "https:" then some serialized else none) = some serialized
      rw [if_pos hh]
    · rw [if_neg hh] at h2
      exact absurd h2 (by simp)

theorem imageCheck_some_inv (v : Option FormDataValue) (x : String)
    (h : (imageCheck v).1 = some x) : ensureSecureImageUrl (rawFieldStr v) = some x := by
  unfold imageCheck at h
  rcases hi : ensureSecureImageUrl (rawFieldStr v) with _ | u
  · rw [hi] at h
    exact absurd h (by simp)
  · rw [hi] at h
    have hux : u = x := by simpa using h
    rw [hux]

/-! ### C8 -/

/-- C8 (counterexample): the submission with title `"< >"` validates
successfully and its record carries the title `" "`; re-running that
field's normalizer on it yields `""`, not `" "` — the sanitized output is
not a fixed point of the text sanitizer, because bracket stripping exposed
edge whitespace that a second pass trims away (turning the value into an
empty, rejected one). -/
theorem c8_counterexample :
    Option.map SanitizedEvent.title
      (validateAndSanitizeEvent exRawSpacedTitle).sanitizedEvent = some " " ∧
    sanitizePlainText " " 100 = "" ∧
    (" " : String) ≠ "" :=
  ⟨rfl, rfl, by decide⟩

/-- C8 (amended): for every successfully validated submission, the record's
time, date, mode and image values are fixed points of their normalizers
(in particular re-validating the serialized image URL accepts it and
returns it unchanged), and each text-field value is a fixed point of its
sanitizer provided it carries no leading or trailing whitespace
(angle-bracket stripping can expose interior whitespace at the ends, in
which case re-sanitization trims further and may reject the value); the
agenda and tags fields are outside this string re-validation reading
(arrays are not strings). -/
theorem c8_sanitization_fixed_points (raw : RawEvent) (ev : SanitizedEvent)
    (h : (validateAndSanitizeEvent raw).sanitizedEvent = some ev) :
    normalizeTime ev.time = some ev.time ∧
    normalizeDate ev.date = some ev.date ∧
    jsToLower (jsTrimStr ev.mode) = ev.mode ∧
    (jsTrim ev.title.data = ev.title.data →
      sanitizePlainText ev.title 100 = ev.title) ∧
    (jsTrim ev.description.data = ev.description.data →
      sanitizePlainText ev.description 1000 = ev.description) ∧
    (jsTrim ev.overview.data = ev.overview.data →
      sanitizePlainText ev.overview 500 = ev.overview) ∧
    (jsTrim ev.venue.data = ev.venue.data →
      sanitizePlainText ev.venue 100 = ev.venue) ∧
    (jsTrim ev.location.data = ev.location.data →
      sanitizePlainText ev.location 150 = ev.location) ∧
    (jsTrim ev.audience.data = ev.audience.data →
      sanitizePlainText ev.audience 150 = ev.audience) ∧
    (jsTrim ev.organizer.data = ev.organizer.data →
      sanitizePlainText ev.organizer 150 = ev.organizer) ∧
    ensureSecureImageUrl ev.image = some ev.image := by
  have hf := sanitized_fields raw ev h
  obtain ⟨st, hnt⟩ := timeCheck_some_inv _ _ hf.2.2.2.2.2.2.2.2.1
  obtain ⟨sd, hnd⟩ := dateCheck_some_inv _ _ hf.2.2.2.2.2.2.2.1
  have hmode := modeCheck_some_inv _ _ hf.2.2.2.2.2.2.2.2.2.1
  obtain ⟨s1, _, hx1⟩ := textFieldCheck_some_inv _ _ _ _ hf.1
  obtain ⟨s2, _, hx2⟩ := textFieldCheck_some_inv _ _ _ _ hf.2.1
  obtain ⟨s3, _, hx3⟩ := textFieldCheck_some_inv _ _ _ _ hf.2.2.1
  obtain ⟨s4, _, hx4⟩ := textFieldCheck_some_inv _ _ _ _ hf.2.2.2.1
  obtain ⟨s5, _, hx5⟩ := textFieldCheck_some_inv _ _ _ _ hf.2.2.2.2.1
  obtain ⟨s6, _, hx6⟩ := textFieldCheck_some_inv _ _ _ _ hf.2.2.2.2.2.1
  obtain ⟨s7, _, hx7⟩ := textFieldCheck_some_inv _ _ _ _ hf.2.2.2.2.2.2.1
  have himg := imageCheck_some_inv _ _ hf.2.2.2.2.2.2.2.2.2.2.2.2
  refine ⟨normalizeTime_fixed st ev.time hnt, normalizeDate_fixed sd ev.date hnd,
    hmode.2, ?_, ?_, ?_, ?_, ?_, ?_, ?_, ensureSecureImageUrl_fixed _ _ himg⟩
  · intro htr
    rw [hx1] at htr ⊢
    exact sanitizePlainText_fixed s1 100 htr
  · intro htr
    rw [hx2] at htr ⊢
    exact sanitizePlainText_fixed s2 1000 htr
  · intro htr
    rw [hx3] at htr ⊢
    exact sanitizePlainText_fixed s3 500 htr
  · intro htr
    rw [hx4] at htr ⊢
    exact sanitizePlainText_fixed s4 100 htr
  · intro htr
    rw [hx5] at htr ⊢
    exact sanitizePlainText_fixed s5 150 htr
  · intro htr
    rw [hx6] at htr ⊢
    exact sanitizePlainText_fixed s6 150 htr
  · intro htr
    rw [hx7] at htr ⊢
    exact sanitizePlainText_fixed s7 150 htr

/-- Witness for C8 at a concrete input: the valid submission's normalized
time, whitespace-free title and serialized image URL are fixed points. -/
theorem c8_sanitization_fixed_points_witness :
    normalizeTime "14:30" = some "14:30" ∧
    sanitizePlainText "Lean Meetup" 100 = "Lean Meetup" ∧
    ensureSecureImageUrl "https://example.com/a.png" = some "https://example.com/a.png" := by
  have h := c8_sanitization_fixed_points exRawValid
    ⟨"Lean Meetup", "An evening of talks", "Community talks", "Main Hall", "Lima",
      "2024-03-15", "14:30", "online", "Developers", ["Intro", "Talks"], "ACME",
      ["AI", "Cloud"], "https://example.com/a.png"⟩ rfl
  exact ⟨h.1, h.2.2.2.1 (by decide), h.2.2.2.2.2.2.2.2.2.2⟩

/-! ### C10 -/

/-- C10: the effective pagination values of the GET handler are clamped —
the limit lies in `[1, 100]` and defaults to 20 when the parameter is
absent or not a number, the page is at least 0 and defaults to 0 when
absent or not a number, and the query skips `page * limit` records. -/
theorem c10_pagination_clamped (limitParam pageParam : Option String) :
    1 ≤ (getPagination limitParam pageParam).limit ∧
    (getPagination limitParam pageParam).limit ≤ 100 ∧
    0 ≤ (getPagination limitParam pageParam).page ∧
    (getPagination limitParam pageParam).skip =
      (getPagination limitParam pageParam).page * (getPagination limitParam pageParam).limit ∧
    (limitParam = none → (getPagination limitParam pageParam).limit = 20) ∧
    (∀ s, limitParam = some s → parseIntJs s = none →
      (getPagination limitParam pageParam).limit = 20) ∧
    (pageParam = none → (getPagination limitParam pageParam).page = 0) ∧
    (∀ s, pageParam = some s → parseIntJs s = none →
      (getPagination limitParam pageParam).page = 0) := by
  have hlim : 1 ≤ (getPagination limitParam pageParam).limit ∧
      (getPagination limitParam pageParam).limit ≤ 100 := by
    rcases limitParam with _ | s
    · simp [getPagination]
    · rcases hp : parseIntJs s with _ | n
      · simp [getPagination, hp]
      · simp only [getPagination, hp]
        omega
  have hpage : 0 ≤ (getPagination limitParam pageParam).page := by
    rcases pageParam with _ | s
    · simp [getPagination]
    · rcases hp : parseIntJs s with _ | n
      · simp [getPagination, hp]
      · simp only [getPagination, hp]
        omega
  refine ⟨hlim.1, hlim.2, hpage, by simp [getPagination], ?_, ?_, ?_, ?_⟩
  · rintro rfl; simp [getPagination]
  · rintro s rfl hnone; simp [getPagination, hnone]
  · rintro rfl; simp [getPagination]
  · rintro s rfl hnone; simp [getPagination, hnone]

/-- Witness for C10 at concrete parameters: a non-numeric limit parameter
falls back to 20 and an absent page parameter to 0. -/
theorem c10_pagination_clamped_witness :
    (getPagination (some "abc") none).limit = 20 ∧
    (getPagination (some "abc") none).page = 0 := by
  have h := c10_pagination_clamped (some "abc") none
  exact ⟨h.2.2.2.2.2.1 "abc" rfl rfl, h.2.2.2.2.2.2.1 rfl⟩

/-! ### C2 -/

/-- C2 (divergence): the object handed to `Event.create` does not carry the
validator's sanitized arrays.  For the submission whose raw tags string is
`["<x>"]`, the persisted `tags` is the raw JSON value `["<x>"]` while the
validator sanitized it to `["x"]`; and for the comma-form tags string
`AI,Cloud`, which the validator accepts, the POST handler aborts (the
pre-validation `JSON.parse` throws) and nothing reaches `Event.create`. -/
theorem c2_persisted_record_diverges :
    Option.map CreateArg.tags (postCreateArg exRawBracketTagElem) =
      some (Json.arr [Json.str "<x>"]) ∧
    Option.map SanitizedEvent.tags
      (validateAndSanitizeEvent exRawBracketTagElem).sanitizedEvent = some ["x"] ∧
    Option.map SanitizedEvent.tags
      (validateAndSanitizeEvent exRawCommaTags).sanitizedEvent = some ["AI", "Cloud"] ∧
    postCreateArg exRawCommaTags = none :=
  ⟨rfl, rfl, rfl, rfl⟩

end DevEvents
